import Mathlib

/-!
Verification of the tpane/topa test-output-processing core: a shallow
embedding of the canonical schema (`ParsedTestResult`, `ParsedFileResult`,
`ParsedTestData`), the four format parsers (TAP line protocol, pytest
console log, JUnit XML, RSpec JSON), the token budget, and the two
encoders, together with theorems about the claims of the specification.

Conventions of the embedding:
* Python strings are modelled as `List Char` (ASCII-faithful; Python's
  unicode-aware `str.lower`/`\w`/`\s` are modelled by their ASCII parts,
  which is exact on the inputs the repository processes).
* Python `re` patterns are hand-compiled to deterministic Lean functions;
  every such function carries the original pattern in its doc comment and
  implements leftmost-search / greedy / lazy semantics of that pattern.
* Python floats are modelled by `ℚ` with `int(...)` as floor (all values
  are nonnegative where truncation happens); the few constant float
  products (`limit * 4 * 0.8`) are modelled by their exact rounded value.
* Library calls outside the repository (`xml.etree.fromstring`,
  `json.loads`, `Path.cwd`-dependent path normalization) are modelled as
  explicit inputs of the functions that consume their outcome.
* Code that can raise an uncaught Python exception is modelled in
  `Except PyErr`; code that cannot raise is modelled as a total function.
-/

namespace Topa

/-! ### Python string primitives -/

/-- Python `str.strip()` whitespace class (ASCII part). -/
def isPySpace (c : Char) : Bool :=
  c = ' ' || c = '\t' || c = '\n' || c = '\r' || c = '\x0b' || c = '\x0c'

def isDigitC (c : Char) : Bool := '0' ≤ c && c ≤ '9'

def isAlphaC (c : Char) : Bool := ('a' ≤ c && c ≤ 'z') || ('A' ≤ c && c ≤ 'Z')

/-- Regex `\w` (ASCII part): letters, digits, underscore. -/
def isWordC (c : Char) : Bool := isAlphaC c || isDigitC c || c = '_'

def asciiLowerC (c : Char) : Char :=
  if 'A' ≤ c && c ≤ 'Z' then Char.ofNat (c.toNat + 32) else c

def asciiUpperC (c : Char) : Char :=
  if 'a' ≤ c && c ≤ 'z' then Char.ofNat (c.toNat - 32) else c

def lowerCs (l : List Char) : List Char := l.map asciiLowerC

def upperCs (l : List Char) : List Char := l.map asciiUpperC

def lstripCs : List Char → List Char
  | [] => []
  | c :: cs => if isPySpace c then lstripCs cs else c :: cs

def rstripCs (l : List Char) : List Char := (lstripCs l.reverse).reverse

/-- Python `str.strip()`: whitespace removed from both ends. -/
def stripCs (l : List Char) : List Char := rstripCs (lstripCs l)

/-- Python `str.strip(chars)` for an explicit character set. -/
def lstripSet (p : Char → Bool) : List Char → List Char
  | [] => []
  | c :: cs => if p c then lstripSet p cs else c :: cs

def stripSet (p : Char → Bool) (l : List Char) : List Char :=
  (lstripSet p (lstripSet p l).reverse).reverse

/-- `needle` occurs at the start of `hay`. -/
def prefixMatch : List Char → List Char → Bool
  | [], _ => true
  | _ :: _, [] => false
  | n :: ns, h :: hs => n = h && prefixMatch ns hs

/-- Python `needle in hay` substring test. -/
def hasSubstr (hay needle : List Char) : Bool :=
  match hay with
  | [] => prefixMatch needle []
  | _ :: hs => prefixMatch needle hay || hasSubstr hs needle

/-- Python `hay.endswith(suffix)`. -/
def endsWith (hay suffix : List Char) : Bool :=
  prefixMatch suffix.reverse hay.reverse

/-- Python `content.split("\n")`; yields `[[]]` on the empty string. -/
def splitNl : List Char → List (List Char)
  | [] => [[]]
  | c :: cs =>
    if c = '\n' then [] :: splitNl cs
    else
      match splitNl cs with
      | h :: t => (c :: h) :: t
      | [] => [[c]]

/-- Accumulating pass for `wsSplit`; `cur` is the reversed current word. -/
def wsSplitAux : List Char → List Char → List (List Char)
  | [], cur => if cur = [] then [] else [cur.reverse]
  | c :: cs, cur =>
    if isPySpace c then
      if cur = [] then wsSplitAux cs [] else cur.reverse :: wsSplitAux cs []
    else wsSplitAux cs (c :: cur)

/-- Python `str.split()`: split on whitespace runs, dropping empties. -/
def wsSplit (l : List Char) : List (List Char) :=
  wsSplitAux l []

/-- Python `" ".join(words)`. -/
def joinSpace : List (List Char) → List Char
  | [] => []
  | [w] => w
  | w :: ws => w ++ ' ' :: joinSpace ws

def countCharIn (l : List Char) (c : Char) : Nat := l.countP (· = c)

def natOfDigits (l : List Char) : Nat :=
  l.foldl (fun acc c => acc * 10 + (c.toNat - '0'.toNat)) 0

/-- Python `int(s)`: optional surrounding whitespace, optional sign,
one or more digits (underscore digit grouping is not modelled). -/
def pyInt (l : List Char) : Option Int :=
  let t := stripCs l
  match t with
  | '-' :: ds => if ds ≠ [] && ds.all isDigitC then some (-(natOfDigits ds : Int)) else none
  | '+' :: ds => if ds ≠ [] && ds.all isDigitC then some (natOfDigits ds : Int) else none
  | ds => if ds ≠ [] && ds.all isDigitC then some (natOfDigits ds : Int) else none

/-- Python `float(s)` restricted to plain decimal literals
`[+-]?digits[.digits]`, modelled exactly in `ℚ` (scientific notation,
`inf`/`nan` and float rounding are not modelled; no claim depends on
them). -/
def pyFloat (l : List Char) : Option ℚ :=
  let t := stripCs l
  let core (ds : List Char) : Option ℚ :=
    let ip := ds.takeWhile isDigitC
    let rest := ds.drop ip.length
    match rest with
    | [] => if ip = [] then none else some (natOfDigits ip : ℚ)
    | '.' :: fp =>
      if fp.all isDigitC && (ip ≠ [] || fp ≠ []) then
        some ((natOfDigits ip : ℚ) + (natOfDigits fp : ℚ) / ((10 : ℚ) ^ fp.length))
      else none
    | _ => none
  match t with
  | '-' :: ds => (core ds).map (fun q => -q)
  | '+' :: ds => core ds
  | ds => core ds

/-- Decimal digit expansion of a natural number. -/
def natDigits (n : Nat) : List Char :=
  (toString n).data

/-- Try a match function at every suffix, leftmost first (the semantics
of `re.search`). -/
def searchSuffixes {α : Type} (f : List Char → Option α) : List Char → Option α
  | [] => f []
  | c :: cs =>
    match f (c :: cs) with
    | some a => some a
    | none => searchSuffixes f cs

/-- Case-insensitive prefix test; the needle is given in lowercase. -/
def prefixMatchCi : List Char → List Char → Bool
  | [], _ => true
  | _ :: _, [] => false
  | n :: ns, h :: hs => n = asciiLowerC h && prefixMatchCi ns hs

/-! ### Canonical schema (`src/tpane/core/schema.py`) -/

inductive TestStatus where
  | pass | fail | error
deriving DecidableEq

inductive TestType where
  | failure | error
deriving DecidableEq

/-- `FocusMode` of the v0.3 encoder (`schema.py`). -/
inductive FocusMode where
  | summary | critical | failures | first_failure | all
deriving DecidableEq

/-- `ParsedTestResult`: one test case of the canonical schema. -/
structure ParsedTestResult where
  name : String
  line : Option Int := none
  passed : Bool := true
  expected : Option String := none
  actual : Option String := none
  error_message : Option String := none
deriving DecidableEq

namespace ParsedTestResult

/-- `is_error`: an exception rather than an assertion failure. -/
def is_error (t : ParsedTestResult) : Bool :=
  !t.passed && t.error_message.isSome

/-- `is_failure`: an assertion failure. -/
def is_failure (t : ParsedTestResult) : Bool :=
  !t.passed && t.error_message.isNone

end ParsedTestResult

/-- `ParsedFileResult`: one source file's results. -/
structure ParsedFileResult where
  file_path : String
  test_results : List ParsedTestResult := []
deriving DecidableEq

namespace ParsedFileResult

def has_issues (f : ParsedFileResult) : Bool :=
  f.test_results.any (fun r => !r.passed)

def failure_count (f : ParsedFileResult) : Nat :=
  f.test_results.countP (fun r => !r.passed && r.error_message.isNone)

def error_count (f : ParsedFileResult) : Nat :=
  f.test_results.countP (fun r => r.error_message.isSome)

end ParsedFileResult

/-- `ParsedTestData`: the test-run aggregate produced by every parser. -/
structure ParsedTestData where
  total_tests : Int := 0
  passed_tests : Int := 0
  failed_tests : Int := 0
  error_tests : Int := 0
  total_files : Int := 0
  elapsed_time : Option String := none
  file_results : List ParsedFileResult := []
deriving DecidableEq

namespace ParsedTestData

def overall_status (d : ParsedTestData) : TestStatus :=
  if d.error_tests > 0 then .error
  else if d.failed_tests > 0 then .fail
  else .pass

def files_with_failures (d : ParsedTestData) : Nat :=
  d.file_results.countP ParsedFileResult.has_issues

end ParsedTestData

/-! ### Shared parser helpers (`src/tpane/parsers/base.py`) -/

/-- The fixed error-keyword set of `BaseParser._is_error_message`. -/
def errorIndicators : List (List Char) :=
  ["error", "exception", "traceback", "stack trace", "undefined method",
   "no method", "null pointer", "syntax error", "runtime error",
   "fatal"].map String.data

/-- `BaseParser._is_error_message`: any indicator occurs in the lowered text. -/
def isErrorMessage (text : List Char) : Bool :=
  errorIndicators.any (fun ind => hasSubstr (lowerCs text) ind)

/-- `BaseParser._normalize_test_name`.  The two `re.sub` calls are
anchored (`^(test_?|it_?)` and `_test$`, both IGNORECASE), so each
removes at most one prefix/suffix. -/
def normalizeTestName (name : List Char) : List Char :=
  if name = [] then "unnamed test".data
  else
    let low := lowerCs name
    let n1 :=
      if prefixMatch "test_".data low then name.drop 5
      else if prefixMatch "test".data low then name.drop 4
      else if prefixMatch "it_".data low then name.drop 3
      else if prefixMatch "it".data low then name.drop 2
      else name
    let n2 := if endsWith (lowerCs n1) "_test".data then n1.take (n1.length - 5) else n1
    let n3 := n2.map (fun c => if c = '_' then ' ' else c)
    let n4 := joinSpace (wsSplit n3)
    if n4 = [] then "unnamed test".data else n4

/-- `BaseParser._extract_line_number`, pattern `(?:line|:)?\s*(\d+)`
searched: the captured group is always the leftmost maximal digit run
(the optional `line`/`:` and `\s*` prefixes never change the group). -/
def extractLineNumber (text : List Char) : Option Int :=
  match text.dropWhile (fun c => !isDigitC c) with
  | [] => none
  | ds => some (natOfDigits (ds.takeWhile isDigitC) : Int)

/-- Character class `[a-zA-Z0-9_./\\-]` of `BaseParser._extract_file_path`. -/
def isPathC (c : Char) : Bool :=
  isAlphaC c || isDigitC c || c = '_' || c = '.' || c = '/' || c = '\\' || c = '-'

/-- Maximal `isPathC` runs of a string, each paired with the character
following the run (`none` at end of input); `cur` is the reversed
current run. -/
def pathRunsAux : List Char → List Char → List (List Char × Option Char)
  | [], cur => if cur = [] then [] else [(cur.reverse, none)]
  | c :: cs, cur =>
    if isPathC c then pathRunsAux cs (c :: cur)
    else if cur = [] then pathRunsAux cs []
    else (cur.reverse, some c) :: pathRunsAux cs []

def pathRuns (l : List Char) : List (List Char × Option Char) :=
  pathRunsAux l []

/-- The extension alternation of `_extract_file_path`'s first pattern, in
source order. -/
def fileExtAlternatives : List (List Char) :=
  ["rb", "py", "js", "ts", "java", "php", "go", "rs", "cpp", "c",
   "h"].map String.data

/-- First pattern `([cls]+\.(?:rb|py|...))(?:\s|:|\[)`: because every
delimiter character is outside the path class, a match is a maximal path
run ending in `.ext` whose following character is a delimiter, and the
group is the whole run. -/
def p1RunHit (run : List Char) (next : Option Char) : Bool :=
  (match next with
   | some c => isPySpace c || c = ':' || c = '['
   | none => false)
  && fileExtAlternatives.any (fun ext =>
       decide (run.length ≥ ext.length + 2) && endsWith run ('.' :: ext))

/-- Second pattern `([cls]+/[cls]+)`: a maximal path run containing `/`
at an interior position matches, and the group is the whole run. -/
def p2RunHit (run : List Char) : Bool :=
  ((run.drop 1).dropLast).contains '/'

/-- `BaseParser._extract_file_path`: first pattern wins over the second. -/
def extractFilePath (text : List Char) : Option (List Char) :=
  match (pathRuns text).findSome?
      (fun rn => if p1RunHit rn.1 rn.2 then some rn.1 else none) with
  | some r => some r
  | none =>
    (pathRuns text).findSome?
      (fun rn => if p2RunHit rn.1 then some rn.1 else none)

/-! #### `BaseParser._extract_assertion_values`

Three searched patterns, first match wins; the second (pytest) pattern
swaps which side is expected.  In each hand-compilation below, a capture
that Python's backtracking would fill with whitespace only (by shifting
a greedy `\s*` boundary) may instead be reported as no match; every
caller but one immediately tests both captures for truthiness after
`strip()`, so there the two behaviours are indistinguishable.  The one
exception — the JUnit failure branch, which stores the optional pair
untested — differs only in whether a whitespace-only expected/actual
pair is stored or omitted, which no claim inspects. -/

/-- Tail `(?:got|actual):\s*([^,\n]+)` of the first pattern, lazily
searched for its earliest occurrence. -/
def p1TailAt (s : List Char) : Option (List Char) :=
  let afterKw :=
    if prefixMatchCi "got:".data s then some (s.drop 4)
    else if prefixMatchCi "actual:".data s then some (s.drop 7)
    else none
  match afterKw with
  | some r =>
    let g2 := (r.dropWhile isPySpace).takeWhile (fun c => !(c = ',' || c = '\n'))
    if g2 = [] then none else some g2
  | none => none

def p1Tail : List Char → Option (List Char)
  | [] => none
  | c :: cs =>
    match p1TailAt (c :: cs) with
    | some g2 => some g2
    | none => p1Tail cs

/-- Greedy-first split of `\s*([^,\n]+)` against the lazy rest: the
consumed length `p` runs from maximal down to 1 (regex priority). -/
def p1Loop (r0 : List Char) (w : Nat) : Nat → Option (List Char × List Char)
  | 0 => none
  | p + 1 =>
    let g1 := (r0.take (p + 1)).drop (min w p)
    match p1Tail (r0.drop (p + 1)) with
    | some g2 => some (g1, g2)
    | none => p1Loop r0 w p

/-- Pattern 1 `expected:\s*([^,\n]+).*?(?:got|actual):\s*([^,\n]+)`
(IGNORECASE, DOTALL) attempted at one position. -/
def p1Attempt (s : List Char) : Option (List Char × List Char) :=
  if prefixMatchCi "expected:".data s then
    let r0 := s.drop 9
    let w := (r0.takeWhile isPySpace).length
    let m := ((r0.drop w).takeWhile (fun c => !(c = ',' || c = '\n'))).length
    if m = 0 then none else p1Loop r0 w (w + m)
  else none

/-- Pattern 2 `assert\s+([^=\n]+)\s*==\s*([^,\n]+)` (IGNORECASE)
attempted at one position.  The greedy `([^=\n]+)` stops exactly at the
first `=` or newline, so the following `\s*==` test is deterministic. -/
def p2Attempt (s : List Char) : Option (List Char × List Char) :=
  if prefixMatchCi "assert".data s then
    let r := s.drop 6
    let w := r.takeWhile isPySpace
    if w = [] then none
    else
      let r1 := r.drop w.length
      let g1 := r1.takeWhile (fun c => !(c = '=' || c = '\n'))
      if g1 = [] then none
      else
        match (r1.drop g1.length).dropWhile isPySpace with
        | '=' :: '=' :: r3 =>
          let g2 := (r3.dropWhile isPySpace).takeWhile (fun c => !(c = ',' || c = '\n'))
          if g2 = [] then none else some (g1, g2)
        | _ => none
  else none

/-- Tail `(?:but\s+(?:was|got)|actual)\s+([^,\n]+)` of the third
pattern at one position; the `but` alternative is tried first. -/
def p3TailAt (s : List Char) : Option (List Char) :=
  let viaBut :=
    if prefixMatchCi "but".data s then
      let r := s.drop 3
      let w2 := r.takeWhile isPySpace
      if w2 = [] then none
      else
        let r1 := r.drop w2.length
        if prefixMatchCi "was".data r1 then some (r1.drop 3)
        else if prefixMatchCi "got".data r1 then some (r1.drop 3)
        else none
    else none
  let afterKw :=
    match viaBut with
    | some r => some r
    | none => if prefixMatchCi "actual".data s then some (s.drop 6) else none
  match afterKw with
  | some r =>
    let w3 := r.takeWhile isPySpace
    if w3 = [] then none
    else
      let g2 := (r.drop w3.length).takeWhile (fun c => !(c = ',' || c = '\n'))
      if g2 = [] then none else some g2
  | none => none

def p3Tail : List Char → Option (List Char)
  | [] => none
  | c :: cs =>
    match p3TailAt (c :: cs) with
    | some g2 => some g2
    | none => p3Tail cs

/-- Greedy-first split for pattern 3; `\s+` and `([^,\n]+)` each need at
least one character, so the consumed length runs down to 2. -/
def p3Loop (r0 : List Char) (w : Nat) : Nat → Option (List Char × List Char)
  | 0 => none
  | 1 => none
  | p + 2 =>
    let g1 := (r0.take (p + 2)).drop (min w (p + 1))
    match p3Tail (r0.drop (p + 2)) with
    | some g2 => some (g1, g2)
    | none => p3Loop r0 w (p + 1)

/-- Pattern 3
`expected\s+([^,\n]+).*?(?:but\s+(?:was|got)|actual)\s+([^,\n]+)`
(IGNORECASE, DOTALL) attempted at one position. -/
def p3Attempt (s : List Char) : Option (List Char × List Char) :=
  if prefixMatchCi "expected".data s then
    let r0 := s.drop 8
    let w := (r0.takeWhile isPySpace).length
    if w = 0 then none
    else
      let m := ((r0.drop w).takeWhile (fun c => !(c = ',' || c = '\n'))).length
      if m = 0 then none else p3Loop r0 w (w + m)
  else none

/-- `BaseParser._extract_assertion_values`: returns the stripped
`(expected, actual)` pair; for the pytest-style pattern the first value
captured is the actual one, so the pair is swapped. -/
def extractAssertionValues (text : List Char) : Option (List Char × List Char) :=
  match searchSuffixes p1Attempt text with
  | some (g1, g2) => some (stripCs g1, stripCs g2)
  | none =>
  match searchSuffixes p2Attempt text with
  | some (g1, g2) => some (stripCs g2, stripCs g1)
  | none =>
  match searchSuffixes p3Attempt text with
  | some (g1, g2) => some (stripCs g1, stripCs g2)
  | none => none

/-! #### `BaseParser._parse_time_string`

Numbers are modelled exactly in `ℚ`; Python's float arithmetic and
formatting agree with the exact values for all inputs the repository
produces (small decimal literals), so the deviation is confined to
inputs no claim evaluates. -/

/-- `(\d+(?:\.\d+)?)` at one position: the value and the rest. -/
def timeNumAt (s : List Char) : Option (ℚ × List Char) :=
  let ip := s.takeWhile isDigitC
  if ip = [] then none
  else
    let r := s.drop ip.length
    match r with
    | '.' :: fp0 =>
      let fp := fp0.takeWhile isDigitC
      if fp = [] then some ((natOfDigits ip : ℚ), r)
      else some ((natOfDigits ip : ℚ) + (natOfDigits fp : ℚ) / ((10 : ℚ) ^ fp.length),
                 fp0.drop fp.length)
    | _ => some ((natOfDigits ip : ℚ), r)

/-- Search for `(\d+(?:\.\d+)?)\s*<unit>` (the optional `ec(onds?)?` /
`ec(onds?)?` tails of the unit literals constrain nothing). -/
def timeSearch (unit : List Char) : List Char → Option ℚ
  | [] => none
  | c :: cs =>
    match timeNumAt (c :: cs) with
    | some (v, r) =>
      if prefixMatch unit (r.dropWhile isPySpace) then some v else timeSearch unit cs
    | none => timeSearch unit cs

/-- Python `int(q)` for the nonnegative values at all call sites. -/
def ratTrunc (q : ℚ) : Int := q.floor

/-- `f"{q:.1f}"` for nonnegative `q`: round half to even at one decimal. -/
def fmt1f (q : ℚ) : List Char :=
  let scaled := q * 10
  let f := scaled.floor
  let frac := scaled - f
  let n := if frac < 1/2 then f
           else if frac > 1/2 then f + 1
           else if f % 2 = 0 then f else f + 1
  (toString (n / 10)).data ++ '.' :: (toString (n % 10)).data

/-- `BaseParser._parse_time_string`. -/
def parseTimeString (timeStr : List Char) : Option (List Char) :=
  if timeStr = [] then none
  else
    let t := lowerCs (stripCs timeStr)
    match timeSearch ['s'] t with
    | some v =>
      if v < 1 then some ((toString (ratTrunc (v * 1000))).data ++ "ms".data)
      else some (fmt1f v ++ ['s'])
    | none =>
    match timeSearch ['m', 's'] t with
    | some v =>
      if v < 1 then some ((toString (ratTrunc (v * 1000))).data ++ "μs".data)
      else some ((toString (ratTrunc v)).data ++ "ms".data)
    | none =>
    match timeSearch ['μ', 's'] t with
    | some v => some ((toString (ratTrunc v)).data ++ "μs".data)
    | none =>
    match timeSearch ['u', 's'] t with
    | some v => some ((toString (ratTrunc v)).data ++ "μs".data)
    | none => some t

/-- `BaseParser._build_test_data` as used by every fallback path: only
`file_results` is supplied, so `total_tests` starts at 0 and the counts
are recomputed from the individual results whenever `file_results` is
non-empty. -/
def buildTestData (frs : List ParsedFileResult) : ParsedTestData :=
  if frs = [] then { file_results := frs }
  else
    { total_tests := (((frs.map (fun f => f.test_results.length)).sum : ℕ) : Int)
      passed_tests := (((frs.map (fun f =>
        f.test_results.countP (fun t => t.passed))).sum : ℕ) : Int)
      failed_tests := (((frs.map (fun f =>
        f.test_results.countP (fun t => !t.passed && !t.is_error))).sum : ℕ) : Int)
      error_tests := (((frs.map (fun f =>
        f.test_results.countP (fun t => t.is_error))).sum : ℕ) : Int)
      total_files := frs.length
      file_results := frs }

/-- One line of the text-scan fallback loop shared (up to its keyword
list and expected-value tag) by `JUnitParser._parse_as_text` and
`RSpecParser._parse_as_text`: a line containing a keyword becomes one
result, classified by the `failure`/`error` substrings, annotated with
the parse-error context when failure-classified. -/
def textScanStep (kws : List (List Char)) (expectedTag : String)
    (errorContext : String) (acc : List ParsedTestResult) (l : List Char) :
    List ParsedTestResult :=
  let line := stripCs l
  if line = [] then acc
  else
    let low := lowerCs line
    if kws.any (fun kw => hasSubstr low kw) then
      let isErr := hasSubstr low "error".data
      let passed := !hasSubstr low "failure".data && !isErr
      acc ++ [{ name := ⟨normalizeTestName line⟩, passed := passed,
                error_message := if isErr then some ⟨line⟩ else none,
                expected := if !passed && !isErr then some expectedTag else none,
                actual := if !passed && !isErr then some errorContext else none }]
    else acc

/-- Keyed grouping that preserves key insertion order: the behaviour of
both `defaultdict(list)` appends (pytest) and the explicit
if-absent-create-then-append grouping (RSpec). -/
def assocAppend (m : List (String × List ParsedTestResult)) (k : String)
    (v : ParsedTestResult) : List (String × List ParsedTestResult) :=
  match m with
  | [] => [(k, [v])]
  | (k', vs) :: rest =>
    if k' = k then (k', vs ++ [v]) :: rest else (k', vs) :: assocAppend rest k v

/-! ### TAP parser (`src/tpane/parsers/tap.py`) -/

namespace TAPParser

/-- Plan pattern `^1\.\.(\d+)(?:\s*#\s*(.*))?$`. -/
def planMatch (l : List Char) : Option (Nat × Option (List Char)) :=
  match l with
  | '1' :: '.' :: '.' :: rest =>
    let ds := rest.takeWhile isDigitC
    if ds = [] then none
    else
      let rest2 := rest.drop ds.length
      match rest2 with
      | [] => some (natOfDigits ds, none)
      | _ =>
        match rest2.dropWhile isPySpace with
        | '#' :: r4 => some (natOfDigits ds, some (r4.dropWhile isPySpace))
        | _ => none
  | _ => none

/-- Test pattern `^(ok|not ok)(?:\s+(\d+))?(?:\s*-?\s*(.*))?$`
(IGNORECASE): status flag (`true` for `ok`), optional ordinal, and the
description group (which, like Python's group 3, may be empty). -/
def testMatch (l : List Char) : Option (Bool × Option Nat × List Char) :=
  let afterStatus : Option (Bool × List Char) :=
    if prefixMatchCi "ok".data l then some (true, l.drop 2)
    else if prefixMatchCi "not ok".data l then some (false, l.drop 6)
    else none
  match afterStatus with
  | none => none
  | some (okSt, r) =>
    let ws := r.takeWhile isPySpace
    let numPart : Option Nat × List Char :=
      if ws = [] then (none, r)
      else
        let ds := (r.drop ws.length).takeWhile isDigitC
        if ds = [] then (none, r)
        else (some (natOfDigits ds), r.drop (ws.length + ds.length))
    let r2 := numPart.2.dropWhile isPySpace
    let r3 := match r2 with | '-' :: t => t | _ => r2
    some (okSt, numPart.1, r3.dropWhile isPySpace)

/-- The directive keyword alternation `(SKIP|TODO|FIXME)` with the
uppercased group value Python computes from it. -/
def directiveKws : List (List Char × String) :=
  [("skip".data, "SKIP"), ("todo".data, "TODO"), ("fixme".data, "FIXME")]

/-- Directive pattern `#\s*(SKIP|TODO|FIXME)(?:\s+(.*))?$` (IGNORECASE)
attempted at one position. -/
def directiveAt (l : List Char) : Option (String × Option (List Char)) :=
  match l with
  | '#' :: r =>
    let r1 := r.dropWhile isPySpace
    directiveKws.findSome? fun kw =>
      if prefixMatchCi kw.1 r1 then
        match r1.drop kw.1.length with
        | [] => some (kw.2, none)
        | r2 =>
          let ws := r2.takeWhile isPySpace
          if ws = [] then none
          else some (kw.2, some (r2.drop ws.length))
      else none
  | _ => none

/-- `directive_pattern.search` on the description: leftmost match,
returning its start index, keyword and reason. -/
def directiveSearch : List Char → Nat → Option (Nat × String × Option (List Char))
  | [], _ => none
  | c :: cs, i =>
    match directiveAt (c :: cs) with
    | some (kw, reason) => some (i, kw, reason)
    | none => directiveSearch cs (i + 1)

/-- The per-line scan state of `TAPParser.parse`. -/
structure TapState where
  results : List ParsedTestResult := []
  planned : Nat := 0
  currentFile : String := "tap_output"
  pending : List (List Char) := []
deriving DecidableEq

/-- The diagnostic-consuming arm of the test branch: attach the
accumulated pending diagnostics to a failed result, either as an error
message or as expected/actual context. -/
def tapAttachDiag (base : ParsedTestResult) (pending : List (List Char)) :
    ParsedTestResult :=
  let diagText := joinSpace pending
  if isErrorMessage diagText then { base with error_message := some ⟨diagText⟩ }
  else
    match extractAssertionValues diagText with
    | some (e, a) =>
      if !e.isEmpty && !a.isEmpty then
        { base with expected := some ⟨e⟩, actual := some ⟨a⟩ }
      else { base with expected := some "test to pass", actual := some ⟨diagText⟩ }
    | none => { base with expected := some "test to pass", actual := some ⟨diagText⟩ }

/-- The test-line branch of the loop of `TAPParser.parse`: the result
it appends for a matched test line, paired with the pending-diagnostics
list it leaves behind. -/
def tapTestEntry (idx : Nat) (st : TapState) (okSt : Bool) (numO : Option Nat)
    (g3 : List Char) : ParsedTestResult × List (List Char) :=
  let num := numO.getD (st.results.length + 1)
  let desc0 := if g3 = [] then "test ".data ++ natDigits num else g3
  let dirSplit :=
    match directiveSearch desc0 0 with
    | some (i, kw, _) => (some kw, stripCs (desc0.take i))
    | none => (none, desc0)
  let passedPending : Bool × List (List Char) :=
    if dirSplit.1 = some "TODO" then
      if okSt then (false, st.pending ++ ["Unexpected pass - TODO item succeeded".data])
      else (true, st.pending)
    else if dirSplit.1 = some "SKIP" then (true, st.pending)
    else (okSt, st.pending)
  let passed := passedPending.1
  let pending := passedPending.2
  let base : ParsedTestResult :=
    { name := ⟨normalizeTestName dirSplit.2⟩, line := some ((idx : Int) + 1),
      passed := passed }
  if !passed && !pending.isEmpty then (tapAttachDiag base pending, [])
  else (base, pending)

/-- One iteration of the line loop of `TAPParser.parse`. -/
def tapStep (idx : Nat) (rawLine : List Char) (st : TapState) : TapState :=
  let line := stripCs rawLine
  if line = [] then st
  else match planMatch line with
  | some (n, descO) =>
    let st := { st with planned := n }
    match descO with
    | some d =>
      if d = [] then st
      else
        match extractFilePath d with
        | some fp => { st with currentFile := ⟨fp⟩ }
        | none => st
    | none => st
  | none =>
  match testMatch line with
  | some (okSt, numO, g3) =>
    let pr := tapTestEntry idx st okSt numO g3
    { st with results := st.results ++ [pr.1], pending := pr.2 }
  | none =>
  match line with
  | '#' :: r =>
    let diag := stripCs (r.dropWhile isPySpace)
    if diag = [] then st
    else if prefixMatch "SKIP".data (upperCs diag) || prefixMatch "TODO".data (upperCs diag)
        || prefixMatch "FIXME".data (upperCs diag) then st
    else
      match extractFilePath diag with
      | some fp => { st with currentFile := ⟨fp⟩ }
      | none => { st with pending := st.pending ++ [diag] }
  | _ => st

def tapScanLines : List (List Char) → Nat → TapState → TapState
  | [], _, st => st
  | l :: ls, i, st => tapScanLines ls (i + 1) (tapStep i l st)

/-- The whole line loop of `TAPParser.parse` on `content.split("\n")`. -/
def tapScan (content : String) : TapState :=
  tapScanLines (splitNl content.data) 0 {}

/-- The synthetic error result appended on a plan mismatch. -/
def planMismatchResult (planned total : Nat) : ParsedTestResult :=
  { name := "test plan mismatch", passed := false,
    error_message :=
      some ⟨"Planned ".data ++ natDigits planned ++ " tests but got ".data
            ++ natDigits total⟩ }

/-- `TAPParser.parse`. -/
def parse (content : String) : ParsedTestData :=
  let st := tapScan content
  let totalTests := st.results.length
  let passedTests := st.results.countP (fun t => t.passed)
  let failedTests := st.results.countP (fun t => !t.passed && !t.is_error)
  let errorTests := st.results.countP (fun t => t.is_error)
  let adjusted : List ParsedTestResult × Nat × Nat :=
    if st.planned > 0 ∧ totalTests ≠ st.planned then
      (st.results ++ [planMismatchResult st.planned totalTests],
       totalTests + 1, errorTests + 1)
    else (st.results, totalTests, errorTests)
  { total_tests := (adjusted.2.1 : Int)
    passed_tests := (passedTests : Int)
    failed_tests := (failedTests : Int)
    error_tests := (adjusted.2.2 : Int)
    total_files := 1
    file_results := [{ file_path := st.currentFile, test_results := adjusted.1 }] }

end TAPParser

/-! ### Pytest console-log parser (`src/tpane/parsers/pytest.py`) -/

namespace PytestParser

/-- Shared shape of the `FAILED`/`ERROR` patterns
`^TAG\s+([^:\s]+(?:\.py)?):?:?(\w+)?\s*-?\s*(.*)$`: the greedy
`[^:\s]+` subsumes the optional `\.py`, so group 1 is the maximal run
of non-colon non-whitespace characters; every later element is optional,
so greedy matching is deterministic.  The `PASSED` pattern is the same
without the trailing `\s*-?\s*(.*)$`, which constrains nothing, so it
shares this function and ignores the third component. -/
def taggedMatch (tag : List Char) (l : List Char) :
    Option (List Char × Option (List Char) × List Char) :=
  if prefixMatch tag l then
    let r := l.drop tag.length
    let ws := r.takeWhile isPySpace
    if ws = [] then none
    else
      let r1 := r.drop ws.length
      let g1 := r1.takeWhile (fun c => !(c = ':' || isPySpace c))
      if g1 = [] then none
      else
        let r2 := r1.drop g1.length
        let r3 := match r2 with | ':' :: t => t | _ => r2
        let r4 := match r3 with | ':' :: t => t | _ => r3
        let g2 := r4.takeWhile isWordC
        let r5 := (r4.drop g2.length).dropWhile isPySpace
        let r6 := match r5 with | '-' :: t => t | _ => r5
        some (g1, (if g2 = [] then none else some g2), r6.dropWhile isPySpace)
  else none

/-- `^PASSED\s+([^:\s]+(?:\.py)?):?:?(\w+)?`. -/
def passedMatch (l : List Char) : Option (List Char × Option (List Char)) :=
  (taggedMatch "PASSED".data l).map (fun g => (g.1, g.2.1))

/-- Optional group `(?:,\s*(\d+)\s+<kw>)?` of the summary pattern:
either consumed wholly or skipped. -/
def summaryOptCount (kw : List Char) (r : List Char) : Option Nat × List Char :=
  match r with
  | ',' :: r1 =>
    let r2 := r1.dropWhile isPySpace
    let ds := r2.takeWhile isDigitC
    if ds = [] then (none, r)
    else
      let r3 := r2.drop ds.length
      let ws := r3.takeWhile isPySpace
      if ws = [] then (none, r)
      else
        let r4 := r3.drop ws.length
        if prefixMatch kw r4 then (some (natOfDigits ds), r4.drop kw.length)
        else (none, r)
  | _ => (none, r)

/-- Lazy tail `.*?in\s+([\d.]+s?)`: the earliest `in` followed by
whitespace and a digit/dot run, with an optional trailing `s`. -/
def summaryTimeTail : List Char → Option (List Char)
  | [] => none
  | c :: cs =>
    let here : Option (List Char) :=
      if c = 'i' then
        match cs with
        | 'n' :: r =>
          let ws := r.takeWhile isPySpace
          if ws = [] then none
          else
            let r1 := r.drop ws.length
            let ds := r1.takeWhile (fun ch => isDigitC ch || ch = '.')
            if ds = [] then none
            else
              match r1.drop ds.length with
              | 's' :: _ => some (ds ++ ['s'])
              | _ => some ds
        | _ => none
      else none
    match here with
    | some t => some t
    | none => summaryTimeTail cs

/-- Summary pattern
`=+\s*(\d+)\s+failed(?:,\s*(\d+)\s+passed)?(?:,\s*(\d+)\s+error)?.*?in\s+([\d.]+s?)`
attempted at one position (no successfully matched optional group can
contain `in`, so no backtracking across groups is possible). -/
def summaryAt (l : List Char) : Option (Nat × Option Nat × Option Nat × List Char) :=
  match l with
  | '=' :: r0 =>
    let r1 := r0.dropWhile (· = '=')
    let r2 := r1.dropWhile isPySpace
    let d1 := r2.takeWhile isDigitC
    if d1 = [] then none
    else
      let r3 := r2.drop d1.length
      let ws := r3.takeWhile isPySpace
      if ws = [] then none
      else
        let r4 := r3.drop ws.length
        if prefixMatch "failed".data r4 then
          let o1 := summaryOptCount "passed".data (r4.drop 6)
          let o2 := summaryOptCount "error".data o1.2
          match summaryTimeTail o2.2 with
          | some t => some (natOfDigits d1, o1.1, o2.1, t)
          | none => none
        else none
  | _ => none

/-- `summary_pattern.search`. -/
def summarySearch (l : List Char) : Option (Nat × Option Nat × Option Nat × List Char) :=
  searchSuffixes summaryAt l

/-- `PytestParser._extract_assertion_from_context` over the bounded
look-ahead window (at most 10 lines, supplied by the caller). -/
def extractFromContext : List (List Char) → Option (List Char × List Char)
  | [] => none
  | l0 :: ls =>
    let line := stripCs l0
    if (taggedMatch "FAILED".data line).isSome || (taggedMatch "ERROR".data line).isSome
        || (passedMatch line).isSome then none
    else if line = [] then extractFromContext ls
    else
      let viaAssert :=
        if hasSubstr (lowerCs line) "assert".data then
          match extractAssertionValues line with
          | some (e, a) => if !e.isEmpty && !a.isEmpty then some (e, a) else none
          | none => none
        else none
      match viaAssert with
      | some p => some p
      | none =>
        let hasOp := hasSubstr line "==".data || hasSubstr line "!=".data
            || hasSubstr line "Expected:".data || hasSubstr line "Actual:".data
        let viaOp :=
          if hasOp then
            match extractAssertionValues line with
            | some (e, a) => if !e.isEmpty && !a.isEmpty then some (e, a) else none
            | none => none
          else none
        match viaOp with
        | some p => some p
        | none => extractFromContext ls

/-- `re.sub(r"^.*?::", "", p)`: remove everything up to and including
the first `::`; the lazy `.*?` cannot cross a newline. -/
def dropThroughDoubleColon : List Char → Option (List Char)
  | [] => none
  | '\n' :: _ => none
  | ':' :: ':' :: rest => some rest
  | c :: cs => if c = '\n' then none else dropThroughDoubleColon cs

/-- `PytestParser._clean_file_path`. -/
def cleanFilePath (p : List Char) : List Char :=
  if p = [] then "unknown".data
  else
    let p1 := (dropThroughDoubleColon p).getD p
    if (hasSubstr p1 "/".data || hasSubstr p1 "_test".data || hasSubstr p1 "test_".data)
        && !endsWith p1 ".py".data
    then p1 ++ ".py".data else p1

/-- The accumulated state of the pytest line loop. -/
structure PyScan where
  fileTests : List (String × List ParsedTestResult) := []
  total : Int := 0
  failedC : Int := 0
  passedC : Int := 0
  errorC : Int := 0
  elapsed : Option String := none
deriving DecidableEq

/-- One iteration of the pytest line loop; `window` is the look-ahead
slice `lines[i+1 : i+11]`. -/
def pytestStep (window : List (List Char)) (rawLine : List Char) (st : PyScan) : PyScan :=
  let line := stripCs rawLine
  if line = [] then st
  else match summarySearch line with
  | some (f, pO, eO, timeStr) =>
    let p := pO.getD 0
    let e := eO.getD 0
    { st with failedC := (f : Int), passedC := (p : Int), errorC := (e : Int),
              total := ((f + p + e : Nat) : Int),
              elapsed := (parseTimeString timeStr).map (fun l => ⟨l⟩) }
  | none =>
  match taggedMatch "FAILED".data line with
  | some (fp, nameO, reason) =>
    let base : ParsedTestResult :=
      { name := ⟨normalizeTestName (nameO.getD "unknown".data)⟩,
        line := extractLineNumber reason, passed := false }
    let r :=
      match extractFromContext window with
      | some (e, a) => { base with expected := some ⟨e⟩, actual := some ⟨a⟩ }
      | none =>
        if reason = [] then base
        else if isErrorMessage reason then { base with error_message := some ⟨reason⟩ }
        else { base with expected := some "assertion to pass", actual := some ⟨reason⟩ }
    { st with fileTests := assocAppend st.fileTests ⟨fp⟩ r }
  | none =>
  match taggedMatch "ERROR".data line with
  | some (fp, nameO, reason0) =>
    let reason := if reason0 = [] then "unknown error".data else reason0
    let r : ParsedTestResult :=
      { name := ⟨normalizeTestName (nameO.getD "unknown".data)⟩,
        line := extractLineNumber reason, passed := false,
        error_message := some ⟨reason⟩ }
    { st with fileTests := assocAppend st.fileTests ⟨fp⟩ r }
  | none =>
  match passedMatch line with
  | some (fp, nameO) =>
    let r : ParsedTestResult :=
      { name := ⟨normalizeTestName (nameO.getD "unknown".data)⟩, passed := true }
    { st with fileTests := assocAppend st.fileTests ⟨fp⟩ r }
  | none => st

def pytestLoop (allLines : List (List Char)) :
    List (List Char) → Nat → PyScan → PyScan
  | [], _, st => st
  | l :: ls, i, st =>
    pytestLoop allLines ls (i + 1) (pytestStep ((allLines.drop (i + 1)).take 10) l st)

/-- The whole line loop of `PytestParser.parse`. -/
def pytestScan (content : String) : PyScan :=
  let lines := splitNl content.data
  pytestLoop lines lines 0 {}

/-- The synthetic placeholder results manufactured when a summary line
was found but no individual test lines were. -/
def genericResults (failedC errorC passedC : Int) : List ParsedTestResult :=
  ((List.range failedC.toNat).map fun i =>
    ({ name := ⟨"failed test ".data ++ natDigits (i + 1)⟩, passed := false,
       expected := some "test to pass", actual := some "test failed" } : ParsedTestResult))
  ++ ((List.range errorC.toNat).map fun i =>
    ({ name := ⟨"error test ".data ++ natDigits (i + 1)⟩, passed := false,
       error_message := some "test error occurred" } : ParsedTestResult))
  ++ ((List.range passedC.toNat).map fun i =>
    ({ name := ⟨"passed test ".data ++ natDigits (i + 1)⟩, passed := true } : ParsedTestResult))

/-- `PytestParser.parse`. -/
def parse (content : String) : ParsedTestData :=
  let st := pytestScan content
  let allTests := st.fileTests.map (fun kv => kv.2)
  let tTot : Int := if st.total = 0 then (((allTests.map List.length).sum : ℕ) : Int)
    else st.total
  let tPass : Int := if st.total = 0 then
      (((allTests.map (fun ts => ts.countP (fun t => t.passed))).sum : ℕ) : Int)
    else st.passedC
  let tFail : Int := if st.total = 0 then
      (((allTests.map (fun ts =>
          ts.countP (fun t => !t.passed && !t.is_error))).sum : ℕ) : Int)
    else st.failedC
  let tErr : Int := if st.total = 0 then
      (((allTests.map (fun ts => ts.countP (fun t => t.is_error))).sum : ℕ) : Int)
    else st.errorC
  let fileResults := st.fileTests.map (fun kv =>
    ({ file_path := ⟨cleanFilePath kv.1.data⟩, test_results := kv.2 } : ParsedFileResult))
  let fileResults :=
    if tTot > 0 ∧ fileResults = [] then
      [{ file_path := "pytest_output", test_results := genericResults tFail tErr tPass }]
    else fileResults
  { total_tests := tTot, passed_tests := tPass, failed_tests := tFail,
    error_tests := tErr, total_files := (fileResults.length : Int),
    elapsed_time := st.elapsed, file_results := fileResults }

end PytestParser

/-! ### JUnit XML parser (`src/tpane/parsers/junit.py`)

`ET.fromstring` is library code; its outcome on the cleaned content is
an explicit input of `parseWith` (`XLoadErr` distinguishes the three
exception families the source handles differently). -/

/-- An element of the XML element tree. -/
inductive XElem where
  | mk (tag : String) (attrs : List (String × String)) (text : Option String)
       (children : List XElem)

namespace XElem

def tag : XElem → String
  | .mk t _ _ _ => t

def attrs : XElem → List (String × String)
  | .mk _ a _ _ => a

def text : XElem → Option String
  | .mk _ _ t _ => t

def children : XElem → List XElem
  | .mk _ _ _ c => c

/-- `elem.get(k)` (attribute dictionaries have unique keys). -/
def get (e : XElem) (k : String) : Option String := e.attrs.lookup k

/-- `elem.get(k, d)`. -/
def getD (e : XElem) (k d : String) : String := (e.get k).getD d

/-- `elem.findall(t)`: direct children with the given tag. -/
def findall (e : XElem) (t : String) : List XElem :=
  e.children.filter (fun c => c.tag = t)

/-- `elem.find(t)`: first direct child with the given tag. -/
def find (e : XElem) (t : String) : Option XElem :=
  e.children.find? (fun c => c.tag = t)

end XElem

/-- The exception families of `JUnitParser.parse`'s `try` block. -/
inductive XLoadErr where
  | parseErr (msg : String)
  | entitiesForbidden
  | otherErr (msg : String)
deriving DecidableEq

namespace JUnitParser

/-- The XML entity-name alternation of `_clean_xml`. -/
def entityNames : List (List Char) :=
  ["amp", "lt", "gt", "quot", "apos"].map String.data

/-- `_clean_xml` substitution 1: `&amp;(amp|lt|gt|quot|apos);` → `&\1;`,
left to right, never rescanning emitted replacements; one arm per
entity-name alternative. -/
def fixDoubleEncoded : List Char → List Char
  | '&' :: 'a' :: 'm' :: 'p' :: ';' :: 'a' :: 'm' :: 'p' :: ';' :: rest =>
    "&amp;".data ++ fixDoubleEncoded rest
  | '&' :: 'a' :: 'm' :: 'p' :: ';' :: 'l' :: 't' :: ';' :: rest =>
    "&lt;".data ++ fixDoubleEncoded rest
  | '&' :: 'a' :: 'm' :: 'p' :: ';' :: 'g' :: 't' :: ';' :: rest =>
    "&gt;".data ++ fixDoubleEncoded rest
  | '&' :: 'a' :: 'm' :: 'p' :: ';' :: 'q' :: 'u' :: 'o' :: 't' :: ';' :: rest =>
    "&quot;".data ++ fixDoubleEncoded rest
  | '&' :: 'a' :: 'm' :: 'p' :: ';' :: 'a' :: 'p' :: 'o' :: 's' :: ';' :: rest =>
    "&apos;".data ++ fixDoubleEncoded rest
  | c :: cs => c :: fixDoubleEncoded cs
  | [] => []

def isHexC (c : Char) : Bool :=
  isDigitC c || ('a' ≤ c && c ≤ 'f') || ('A' ≤ c && c ≤ 'F')

/-- The negative lookahead `(?:amp|lt|gt|quot|apos|#\d+|#x[0-9a-fA-F]+);`
of `_clean_xml` substitution 2, tested after a `&`. -/
def validEntityAfterAmp (cs : List Char) : Bool :=
  entityNames.any (fun e => prefixMatch (e ++ [';']) cs)
  || (match cs with
      | '#' :: 'x' :: rest =>
        let h := rest.takeWhile isHexC
        !h.isEmpty && prefixMatch [';'] (rest.drop h.length)
      | '#' :: rest =>
        let d := rest.takeWhile isDigitC
        !d.isEmpty && prefixMatch [';'] (rest.drop d.length)
      | _ => false)

/-- `_clean_xml` substitution 2: escape each `&` not starting a valid
entity reference. -/
def escapeAmps : List Char → List Char
  | [] => []
  | c :: cs =>
    if c = '&' then
      if validEntityAfterAmp cs then '&' :: escapeAmps cs
      else "&amp;".data ++ escapeAmps cs
    else c :: escapeAmps cs

/-- `JUnitParser._clean_xml`. -/
def cleanXml (content : List Char) : List Char :=
  let c1 := if prefixMatch ['﻿'] content then content.drop 1 else content
  stripCs (escapeAmps (fixDoubleEncoded c1))

/-- `JUnitParser._parse_testcase`. -/
def parseTestcase (tc : XElem) : ParsedTestResult :=
  let testName : String := ⟨normalizeTestName (tc.getD "name" "unnamed test").data⟩
  let line : Option Int :=
    match tc.get "line" with
    | some la => if la ≠ "" then pyInt la.data else none
    | none => none
  match tc.find "error" with
  | some err =>
    let msg := err.getD "message" ""
    let txt := err.text.getD ""
    { name := testName, line := line, passed := false,
      error_message :=
        some ⟨stripSet (fun c => c = ':' || c = ' ') (msg.data ++ ": ".data ++ txt.data)⟩ }
  | none =>
  match tc.find "failure" with
  | some fl =>
    let msg := fl.getD "message" ""
    let txt := fl.text.getD ""
    let ea := extractAssertionValues (stripCs (msg.data ++ ' ' :: txt.data))
    { name := testName, line := line, passed := false,
      expected := ea.map (fun p => (⟨p.1⟩ : String)),
      actual := ea.map (fun p => (⟨p.2⟩ : String)) }
  | none => { name := testName, line := line, passed := true }

/-- First truthy attribute among `file`, `filename`, `source`. -/
def firstTruthyAttr (ts : XElem) : List String → Option String
  | [] => none
  | k :: ks =>
    match ts.get k with
    | some v => if v ≠ "" then some v else firstTruthyAttr ts ks
    | none => firstTruthyAttr ts ks

def joinChar (sep : Char) : List (List Char) → List Char
  | [] => []
  | [w] => w
  | w :: ws => w ++ sep :: joinChar sep ws

def splitChar (sep : Char) : List Char → List (List Char)
  | [] => [[]]
  | c :: cs =>
    if c = sep then [] :: splitChar sep cs
    else
      match splitChar sep cs with
      | h :: t => (c :: h) :: t
      | [] => [[c]]

/-- `JUnitParser._extract_file_path_from_suite`.  The package-style
branch is dead in the source (any suite name containing a dot already
returned from the previous branch); it is reproduced faithfully. -/
def extractFilePathFromSuite (ts : XElem) (suiteName : String) : String :=
  match firstTruthyAttr ts ["file", "filename", "source"] with
  | some fp => fp
  | none =>
    let n := suiteName.data
    if hasSubstr n "/".data || hasSubstr n "\\".data || hasSubstr n ".".data then
      suiteName
    else if hasSubstr n ".".data then
      let parts := splitChar '.' n
      if parts.length > 1 then
        ⟨joinChar '/' parts.dropLast ++ '/' :: (parts.getLastD [] ++ ".java".data)⟩
      else ⟨n ++ ".java".data⟩
    else ⟨n ++ ".java".data⟩

/-- `int(testsuite.get(k, "0"))`, an uncaught `ValueError` on failure. -/
def suiteInt (ts : XElem) (k : String) : Except String Int :=
  match pyInt (ts.getD k "0").data with
  | some n => .ok n
  | none => .error ("invalid literal for int() with base 10: '" ++ ts.getD k "0" ++ "'")

/-- `float(testsuite.get("time", "0"))`. -/
def suiteFloat (ts : XElem) (k : String) : Except String ℚ :=
  match pyFloat (ts.getD k "0").data with
  | some q => .ok q
  | none => .error ("could not convert string to float: '" ++ ts.getD k "0" ++ "'")

/-- Decimal representation of a nonnegative rational whose denominator
divides a power of ten — the only values `f"{total_time}"` formats here,
on which it agrees with Python's float repr of the same decimals. -/
def fracDigits : Nat → Nat → Nat → List Char
  | _, _, 0 => []
  | r, d, fuel + 1 =>
    if r = 0 then []
    else Char.ofNat ('0'.toNat + r * 10 / d) :: fracDigits (r * 10 % d) d fuel

def ratDecimalRepr (q : ℚ) : List Char :=
  let n := q.num.toNat
  let d := q.den
  if n % d = 0 then (toString (n / d)).data ++ ".0".data
  else (toString (n / d)).data ++ '.' :: fracDigits (n % d) d 30

/-- The accumulator loop of `JUnitParser._parse_testsuites`. -/
def parseSuitesLoop :
    List XElem → List ParsedFileResult × Int × Int × Int × ℚ →
    Except String (List ParsedFileResult × Int × Int × Int × ℚ)
  | [], acc => .ok acc
  | ts :: rest, (frs, tot, fails, errs, time) => do
    let sTests ← suiteInt ts "tests"
    let sFails ← suiteInt ts "failures"
    let sErrs ← suiteInt ts "errors"
    let sTime ← suiteFloat ts "time"
    let testResults := (ts.findall "testcase").map parseTestcase
    let fp := extractFilePathFromSuite ts (ts.getD "name" "unknown")
    parseSuitesLoop rest
      (frs ++ [{ file_path := fp, test_results := testResults }],
       tot + sTests, fails + sFails, errs + sErrs, time + sTime)

/-- `JUnitParser._parse_testsuites`: declared counts are authoritative. -/
def parseTestsuites (suites : List XElem) : Except String ParsedTestData := do
  let acc ← parseSuitesLoop suites ([], 0, 0, 0, 0)
  let frs := acc.1
  let tot := acc.2.1
  let fails := acc.2.2.1
  let errs := acc.2.2.2.1
  let time := acc.2.2.2.2
  .ok { total_tests := tot, passed_tests := tot - fails - errs,
        failed_tests := fails, error_tests := errs,
        total_files := (frs.length : Int),
        elapsed_time :=
          if time > 0 then (parseTimeString (ratDecimalRepr time ++ ['s'])).map (⟨·⟩)
          else none,
        file_results := frs }

/-- `JUnitParser._parse_as_text`, the text-scan fallback (applied to the
cleaned content, which the source reassigned before parsing); its
keywords are `test`, `failure`, `error`. -/
def parseAsText (cleaned : List Char) (errorContext : String) : ParsedTestData :=
  let results := (splitNl cleaned).foldl
    (textScanStep ["test".data, "failure".data, "error".data] "parse error"
      errorContext) []
  buildTestData [{ file_path := "junit_parse_error.xml", test_results := results }]

/-- `JUnitParser.parse`, given the outcome of `ET.fromstring` on the
cleaned content.  Every exception path degrades to `_parse_as_text`, so
the function is total. -/
def parseWith (load : Except XLoadErr XElem) (content : String) : ParsedTestData :=
  let cleaned := cleanXml content.data
  match load with
  | .error (.parseErr m) => parseAsText cleaned ("XML Parse Error: " ++ m)
  | .error .entitiesForbidden =>
    parseAsText cleaned "XML Security Error: Entity processing forbidden"
  | .error (.otherErr m) => parseAsText cleaned ("XML Processing Error: " ++ m)
  | .ok root =>
    let suitesO : Except String (List XElem) :=
      if root.tag = "testsuites" then .ok (root.findall "testsuite")
      else if root.tag = "testsuite" then .ok [root]
      else .error ("Unexpected root element: " ++ root.tag)
    match suitesO with
    | .error m => parseAsText cleaned ("XML Processing Error: " ++ m)
    | .ok suites =>
      match parseTestsuites suites with
      | .ok d => d
      | .error m => parseAsText cleaned ("XML Processing Error: " ++ m)

end JUnitParser

/-! ### RSpec JSON parser (`src/parsers/rspec.py`)

`json.loads` is library code; its outcome is an explicit input of
`parseWith`.  JSON numbers are carried as exact `ℚ` (a `num` with
denominator 1 stands for a decoded `int`).  The `try` block of `parse`
catches only `json.JSONDecodeError`: every other exception — including
the two `ValueError`s the validation itself raises — propagates to the
caller, which the model expresses by returning `Except PyErr`.
Exception messages are reproduced up to quoting punctuation. -/

/-- A JSON-decoded Python value. -/
inductive JValue where
  | null
  | bool (b : Bool)
  | num (q : ℚ)
  | str (s : String)
  | arr (l : List JValue)
  | obj (l : List (String × JValue))

/-- The Python exception kinds the RSpec parser can leak. -/
inductive PyErr where
  | valueError (msg : String)
  | typeError (msg : String)
  | attributeError (msg : String)
deriving DecidableEq

namespace JValue

/-- Python truthiness of a decoded value. -/
def truthy : JValue → Bool
  | .null => false
  | .bool b => b
  | .num q => decide (q ≠ 0)
  | .str s => s ≠ ""
  | .arr l => !l.isEmpty
  | .obj l => !l.isEmpty

/-- `f"{v}"` of a decoded value; exact on the strings and numbers any
claim touches (container formatting is not modelled). -/
def format : JValue → List Char
  | .null => "None".data
  | .bool true => "True".data
  | .bool false => "False".data
  | .num q => if q.den = 1 then (toString q.num).data else JUnitParser.ratDecimalRepr q
  | .str s => s.data
  | .arr _ => "[...]".data
  | .obj _ => "<dict>".data

end JValue

namespace RSpecParser

/-- `RSpecParser._parse_as_text`, the text-scan fallback for
undecodable JSON; its keywords are `example`, `spec`, `failure`,
`error`. -/
def parseAsText (content : List Char) (errorContext : String) : ParsedTestData :=
  let results := (splitNl content).foldl
    (textScanStep ["example".data, "spec".data, "failure".data, "error".data]
      "valid JSON" errorContext) []
  buildTestData [{ file_path := "rspec_parse_error.json", test_results := results }]

/-- `RSpecParser._normalize_rspec_description` on a (truthy) string. -/
def normalizeRspecDescription (d : List Char) : List Char :=
  if d = [] then "unnamed example".data
  else joinSpace (wsSplit d)

/-- The assertion-failure allow-list of `_is_rspec_error`. -/
def failureExceptions : List String :=
  ["RSpec::Expectations::ExpectationNotMetError", "ExpectationNotMetError",
   "Failure"]

/-- The combined message `f"{cls}: {msg}".strip(": ")`. -/
def exceptionText (cls msg : JValue) : String :=
  ⟨stripSet (fun c => c = ':' || c = ' ') (cls.format ++ ": ".data ++ msg.format)⟩

/-- `RSpecParser._parse_example`; a non-object example is a decoded
string or key (see `examplesList`) whose first attribute access raises. -/
def parseExample (ex : JValue) : Except PyErr ParsedTestResult :=
  match ex with
  | .obj ek =>
    let desc := (ek.lookup "description").getD (.str "unnamed example")
    let fullDesc := (ek.lookup "full_description").getD desc
    let status := (ek.lookup "status").getD (.str "unknown")
    let lineNum : Option Int :=
      match ek.lookup "line_number" with
      | some (.num q) => if q.den = 1 then some q.num else none
      | _ => none
    let passed : Bool :=
      match status with
      | .str s => s = "passed" || s = "pending"
      | _ => false
    let chosen := if fullDesc.truthy then fullDesc else desc
    let nameE : Except PyErr String :=
      if !chosen.truthy then .ok "unnamed example"
      else
        match chosen with
        | .str s => .ok ⟨normalizeRspecDescription s.data⟩
        | _ => .error (.attributeError "no attribute split")
    match nameE with
    | .error e => .error e
    | .ok name =>
      let base : ParsedTestResult := { name := name, line := lineNum, passed := passed }
      if passed then .ok base
      else
        match ek.lookup "exception" with
        | some exv =>
          if exv.truthy then
            match exv with
            | .obj exk =>
              let cls := (exk.lookup "class").getD (.str "")
              let msg := (exk.lookup "message").getD (.str "")
              let isErr : Bool :=
                match cls with
                | .str s => !failureExceptions.contains s
                | _ => true
              if isErr then
                .ok { base with error_message := some (exceptionText cls msg) }
              else
                match msg with
                | .str ms =>
                  match extractAssertionValues ms.data with
                  | some (e, a) =>
                    if !e.isEmpty && !a.isEmpty then
                      .ok { base with expected := some ⟨e⟩, actual := some ⟨a⟩ }
                    else
                      .ok { base with expected := some "assertion to pass"
                                      actual := some (exceptionText cls msg) }
                  | none =>
                    .ok { base with expected := some "assertion to pass"
                                    actual := some (exceptionText cls msg) }
                | _ => .error (.typeError "expected string or bytes-like object")
            | _ => .error (.attributeError "no attribute get")
          else .ok base
        | none => .ok base
  | _ => .error (.attributeError "no attribute get")

/-- `_clean_rspec_file_path` on the raw `file_path` value: a falsy value
yields the default, a truthy non-string raises at `.lower()`. -/
def cleanRspecFilePath (v : JValue) : Except PyErr (List Char) :=
  if !v.truthy then .ok "unknown_spec.rb".data
  else
    match v with
    | .str s =>
      .ok (if hasSubstr (lowerCs s.data) "spec".data && !endsWith s.data ".rb".data
           then s.data ++ ".rb".data else s.data)
    | _ => .error (.attributeError "no attribute lower")

/-- A summary count read that participates in the passed-count
subtraction.  Python stores the raw value and fails only at the
subtraction (or keeps a float); the model surfaces the same failure at
read time and rejects non-integer numbers, which no claim evaluates. -/
def summaryCount (sk : List (String × JValue)) (k : String) : Except PyErr Int :=
  match sk.lookup k with
  | none => .ok 0
  | some (.num q) =>
    if q.den = 1 then .ok q.num else .error (.typeError "non-integer count")
  | some _ => .error (.typeError "unsupported operand type")

/-- Iterating `data["examples"]`: a list yields its elements; iterating
a non-empty string or dict yields strings whose first `.get` raises;
the empty string and empty dict iterate nothing; other values are not
iterable. -/
def examplesList (v : JValue) : Except PyErr (List JValue) :=
  match v with
  | .arr l => .ok l
  | .str s => if s = "" then .ok [] else .error (.attributeError "no attribute get")
  | .obj [] => .ok []
  | .obj _ => .error (.attributeError "no attribute get")
  | _ => .error (.typeError "object is not iterable")

/-- `example.get("file_path", "unknown_spec.rb")` on a decoded value. -/
def exampleFilePathRaw : JValue → JValue
  | .obj ek => (ek.lookup "file_path").getD (.str "unknown_spec.rb")
  | _ => .str "unknown_spec.rb"

/-- The grouping loop over examples (order of effects as in the source:
the example is parsed before its file path is read and cleaned). -/
def groupExamples :
    List JValue → List (String × List ParsedTestResult) →
    Except PyErr (List (String × List ParsedTestResult))
  | [], acc => .ok acc
  | ex :: rest, acc => do
    let r ← parseExample ex
    let fp ← cleanRspecFilePath (exampleFilePathRaw ex)
    groupExamples rest (assocAppend acc ⟨fp⟩ r)

/-- `RSpecParser._parse_rspec_json`.  `pending_count` is read but never
used in arithmetic, so it cannot raise and is not validated. -/
def parseRspecJson (kvs : List (String × JValue)) : Except PyErr ParsedTestData :=
  match (kvs.lookup "summary").getD (.obj []) with
  | .obj sk => do
    let total ← summaryCount sk "example_count"
    let failed ← summaryCount sk "failure_count"
    let errs ← summaryCount sk "error_count"
    let passed := total - failed - errs
    let elapsed : Option String :=
      match sk.lookup "duration" with
      | none => none
      | some .null => none
      | some v => (parseTimeString (v.format ++ ['s'])).map (⟨·⟩)
    let exs ← examplesList ((kvs.lookup "examples").getD (.arr []))
    let groups ← groupExamples exs []
    let frs := groups.map (fun kv =>
      ({ file_path := kv.1, test_results := kv.2 } : ParsedFileResult))
    .ok { total_tests := total, passed_tests := passed, failed_tests := failed,
          error_tests := errs, total_files := (frs.length : Int),
          elapsed_time := elapsed, file_results := frs }
  | _ => .error (.attributeError "no attribute get")

/-- `RSpecParser.parse`, given the outcome of `json.loads`.  Only a
decode error reaches the fallback; the two validation `ValueError`s are
raised inside the `try` block but not caught by its
`except json.JSONDecodeError` clause, so they escape. -/
def parseWith (load : Except String JValue) (content : String) :
    Except PyErr ParsedTestData :=
  match load with
  | .error m => .ok (parseAsText content.data ("JSON Parse Error: " ++ m))
  | .ok (.obj kvs) =>
    if (kvs.lookup "examples").isNone then
      .error (.valueError "Missing examples in RSpec JSON")
    else parseRspecJson kvs
  | .ok _ => .error (.valueError "Expected JSON object at root")

end RSpecParser

/-! ### Token budget (`src/tpane/core/token_budget.py`)

Floats are modelled in `ℚ`; the only float products the budget computes
(`yaml_chars * 0.5`, `adjusted / 4`, `token_limit * 4 * 0.8`) are exact
or round to the same truncated integer for every attainable value, so
`int(...)` becomes the rational floor. -/

structure TokenBudget where
  limit : Int
  consumed : Int
deriving DecidableEq

namespace TokenBudget

/-- `CHARS_PER_TOKEN`. -/
def CHARS_PER_TOKEN : Int := 4

/-- `YAML_OVERHEAD`, the fixed structural-overhead constant. -/
def YAML_OVERHEAD : Int := 50

/-- Construction through `__post_init__`: whatever `consumed` value the
caller passed is overwritten with `YAML_OVERHEAD`. -/
def postInit (limit : Int) : TokenBudget :=
  { limit := limit, consumed := YAML_OVERHEAD }

/-- `remaining`. -/
def remaining (b : TokenBudget) : Int := max 0 (b.limit - b.consumed)

/-- `used_percentage`. -/
def usedPercentage (b : TokenBudget) : ℚ :=
  if b.limit > 0 then (b.consumed * 100 : ℚ) / (b.limit : ℚ) else 0

/-- `has_budget`. -/
def hasBudget (b : TokenBudget) (tokens : Option Int) : Bool :=
  match tokens with
  | none => decide (b.remaining > 0)
  | some n => decide (b.remaining ≥ n)

/-- The structural-punctuation count of `estimate_tokens` (over the
whole text, not the trimmed text). -/
def yamlChars (text : List Char) : Nat :=
  countCharIn text ':' + countCharIn text '-' + countCharIn text '\n'

/-- `estimate_tokens`:
`max(1, int((len(text.strip()) + yaml_chars * 0.5) / CHARS_PER_TOKEN))`
for non-empty text, 0 for the empty string.  The float expression
truncates to exactly `(2 * chars + yaml) / 8` in `ℕ` for every
attainable value; the bridge to the rational (float) formula is proved
in `estimateTokens_float_model`. -/
def estimateTokens (text : List Char) : Nat :=
  if text = [] then 0
  else max 1 ((2 * (stripCs text).length + yamlChars text) / 8)

/-- `would_exceed`. -/
def wouldExceed (b : TokenBudget) (text : List Char) : Bool :=
  decide (b.consumed + (estimateTokens text : Int) > b.limit)

/-- `consume`: the one mutating operation, returning the cost and the
updated budget. -/
def consume (b : TokenBudget) (text : List Char) : Nat × TokenBudget :=
  let tokens := estimateTokens text
  (tokens, { b with consumed := b.consumed + (tokens : Int) })

/-- `force_consume` is `consume` verbatim. -/
def forceConsume (b : TokenBudget) (text : List Char) : Nat × TokenBudget :=
  consume b text

/-- `reserve`. -/
def reserve (b : TokenBudget) (tokens : Int) : Bool × TokenBudget :=
  if b.remaining ≥ tokens then (true, { b with consumed := b.consumed + tokens })
  else (false, b)

/-- Python `text.rfind(c)` as an `Int` (−1 when absent). -/
def rfindChar (text : List Char) (c : Char) : Int :=
  match (text.reverse.findIdx? (· = c)) with
  | some i => (text.length : Int) - 1 - (i : Int)
  | none => -1

/-- `_truncate_intelligently` (pure in the source: reads no budget
state). -/
def truncIntelligently (text : List Char) (targetChars : Int) : List Char :=
  if (text.length : Int) ≤ targetChars then text
  else if targetChars < 20 then text.take (max 0 (targetChars - 3)).toNat ++ "...".data
  else
    let truncated := text.take (targetChars - 3).toNat
    let lastSpace := rfindChar truncated ' '
    let truncated := if lastSpace > targetChars / 2 then truncated.take lastSpace.toNat
                     else truncated
    let lastPeriod := rfindChar truncated '.'
    if lastPeriod > targetChars / 2 then truncated.take (lastPeriod + 1).toNat
    else truncated ++ "...".data

/-- `int(token_limit * CHARS_PER_TOKEN * 0.8)`: for every positive
`token_limit` the float product truncates to `⌊3.2 · token_limit⌋`. -/
def targetCharsOf (tokenLimit : Int) : Int := tokenLimit * 16 / 5

/-- `smart_truncate` (reads the budget, never writes it — mirrored by
its non-state-passing type). -/
def smartTruncate (b : TokenBudget) (text : List Char) (maxTokens : Option Int) :
    List Char :=
  if text = [] then text
  else
    let tokenLimit := maxTokens.getD b.remaining
    if tokenLimit ≤ 0 then []
    else if (estimateTokens text : Int) ≤ tokenLimit then text
    else
      let targetChars := targetCharsOf tokenLimit
      if targetChars < 10 then []
      else truncIntelligently text targetChars

/-- `copy`. -/
def copy (b : TokenBudget) : TokenBudget := b

end TokenBudget

/-! ### Output tree nodes of the v0.2 encoder (`schema.py`) -/

structure TestResult where
  line : Int
  name : String
  type : TestType
  expected : Option String := none
  actual : Option String := none
  error : Option String := none
  diff : Option String := none
deriving DecidableEq

structure FileSummary where
  file : String
  tests : List TestResult := []
  truncated : Option Int := none
deriving DecidableEq

structure FileIssues where
  file : String
  issues : Int
deriving DecidableEq

structure TestCounts where
  total : Int := 0
  passed : Int := 0
  failed : Int := 0
  errors : Int := 0
deriving DecidableEq

structure FileCounts where
  total : Int := 0
  with_failures : Int := 0
deriving DecidableEq

structure Summary where
  status : TestStatus
  tests : TestCounts
  files : FileCounts
  elapsed : Option String := none
deriving DecidableEq

structure TOPAOutput where
  version : String
  summary : Summary
  failures : Option (List FileSummary) := none
  files_with_issues : Option (List FileIssues) := none
deriving DecidableEq

/-! ### v0.2 encoder (`src/tpane/core/encoder.py`)

`_normalize_path` consults `Path.cwd()`, an environment value outside
the core; it is carried as the `normPath` field.  Every budget-touching
call threads the `TokenBudget` state explicitly, mirroring the shared
mutable object of the source. -/

/-- `[t for t in file_result.test_results if not t.passed]`, the
non-passed selection both encoders start a file from. -/
def failedOf (fr : ParsedFileResult) : List ParsedTestResult :=
  fr.test_results.filter (fun t => !t.passed)

structure TOPAEncoder where
  focus_mode : String
  budget : TokenBudget
  normPath : String → String

namespace TOPAEncoder

/-- `_generate_simple_diff`. -/
def genSimpleDiff (b : TokenBudget) (expected actual : String) : Option String :=
  if !b.hasBudget (some 50) then none
  else
    let expLines := splitNl expected.data
    let actLines := splitNl actual.data
    let diffText := "- ".data ++ (actLines.headD "(empty)".data)
                    ++ '\n' :: '+' :: ' ' :: (expLines.headD "(empty)".data)
    if !b.wouldExceed diffText then some ⟨diffText⟩ else none

/-- `_build_test_result`: one `TestResult` with fixed per-field token
sub-budgets (name 30, error 50, expected/actual 25). -/
def buildTestResult (b : TokenBudget) (t : ParsedTestResult) :
    TestResult × TokenBudget :=
  if t.is_error then
    ({ line := t.line.getD 0,
       name := ⟨b.smartTruncate t.name.data (some 30)⟩,
       type := .error,
       error := some ⟨b.smartTruncate
         (match t.error_message with
          | some m => if m = "" then "unknown error".data else m.data
          | none => "unknown error".data) (some 50)⟩ }, b)
  else
    let base : TestResult :=
      { line := t.line.getD 0,
        name := ⟨b.smartTruncate t.name.data (some 30)⟩,
        type := .failure,
        expected := t.expected.map (fun e => (⟨b.smartTruncate e.data (some 25)⟩ : String)),
        actual := t.actual.map (fun a => (⟨b.smartTruncate a.data (some 25)⟩ : String)) }
    let withDiff :=
      if b.remaining > 100
          && (match t.expected with | some e => e ≠ "" | none => false)
          && (match t.actual with | some a => a ≠ "" | none => false) then
        { base with diff := genSimpleDiff b (t.expected.getD "") (t.actual.getD "") }
      else base
    (withDiff, b)

/-- `_build_summary`. -/
def buildSummary (d : ParsedTestData) : Summary :=
  { status := d.overall_status,
    tests := { total := d.total_tests, passed := d.passed_tests,
               failed := d.failed_tests, errors := d.error_tests },
    files := { total := d.total_files, with_failures := (d.files_with_failures : Int) },
    elapsed := d.elapsed_time }

/-- The file loop of `_build_files_with_issues` (append, then break once
the budget is gone). -/
def buildFilesWithIssues (np : String → String) (b : TokenBudget) :
    List ParsedFileResult → List FileIssues × TokenBudget
  | [] => ([], b)
  | fr :: frs =>
    if fr.has_issues then
      let fi : FileIssues :=
        { file := np fr.file_path,
          issues := ((fr.failure_count + fr.error_count : Nat) : Int) }
      if !b.hasBudget none then ([fi], b)
      else
        let rest := buildFilesWithIssues np b frs
        (fi :: rest.1, rest.2)
    else buildFilesWithIssues np b frs

/-- The inner test loop of `_build_critical_failures` (append, then
break once the budget is gone). -/
def buildCriticalTests (b : TokenBudget) :
    List ParsedTestResult → List TestResult × TokenBudget
  | [] => ([], b)
  | t :: ts =>
    let tr : TestResult :=
      { line := t.line.getD 0, name := t.name, type := .error,
        error := some ⟨b.smartTruncate
          (match t.error_message with
           | some m => if m = "" then "unknown error".data else m.data
           | none => "unknown error".data) (some 50)⟩ }
    if !b.hasBudget none then ([tr], b)
    else
      let rest := buildCriticalTests b ts
      (tr :: rest.1, rest.2)

/-- `_build_critical_failures`: error-classified results only. -/
def buildCriticalFailures (np : String → String) (b : TokenBudget) :
    List ParsedFileResult → List FileSummary × TokenBudget
  | [] => ([], b)
  | fr :: frs =>
    let errorTests := fr.test_results.filter (fun t => t.is_error)
    if errorTests.isEmpty then buildCriticalFailures np b frs
    else
      let inner := buildCriticalTests b errorTests
      let entry := if inner.1.isEmpty then ([] : List FileSummary)
                   else [{ file := np fr.file_path, tests := inner.1 }]
      if !inner.2.hasBudget none then (entry, inner.2)
      else
        let rest := buildCriticalFailures np inner.2 frs
        (entry ++ rest.1, rest.2)

/-- `_build_first_failure_details`. -/
def buildFirstFailureDetails (np : String → String) (b : TokenBudget) :
    List ParsedFileResult → List FileSummary × TokenBudget
  | [] => ([], b)
  | fr :: frs =>
    let failedTests := fr.test_results.filter (fun t => !t.passed)
    match failedTests with
    | [] => buildFirstFailureDetails np b frs
    | first :: more =>
      let built := buildTestResult b first
      let entry : FileSummary :=
        { file := np fr.file_path, tests := [built.1],
          truncated := if more.length > 0 then some (more.length : Int) else none }
      if !built.2.hasBudget none then ([entry], built.2)
      else
        let rest := buildFirstFailureDetails np built.2 frs
        (entry :: rest.1, rest.2)

/-- The inner test loop of `_build_all_failure_details` (append, then
break once the consumed share exceeds 80%). -/
def buildAllTests (b : TokenBudget) :
    List ParsedTestResult → List TestResult × TokenBudget
  | [] => ([], b)
  | t :: ts =>
    let built := buildTestResult b t
    if built.2.usedPercentage > 80 then ([built.1], built.2)
    else
      let rest := buildAllTests built.2 ts
      (built.1 :: rest.1, rest.2)

/-- `_build_all_failure_details`: every non-passed result, errors before
failures within each file. -/
def buildAllFailureDetails (np : String → String) (b : TokenBudget) :
    List ParsedFileResult → List FileSummary × TokenBudget
  | [] => ([], b)
  | fr :: frs =>
    let failedTests := failedOf fr
    if failedTests.isEmpty then buildAllFailureDetails np b frs
    else
      let errorTests := failedTests.filter (fun t => t.is_error)
      let failureTests := failedTests.filter (fun t => t.is_failure)
      let inner := buildAllTests b (errorTests ++ failureTests)
      let entry := if inner.1.isEmpty then ([] : List FileSummary)
                   else [{ file := np fr.file_path, tests := inner.1 }]
      if !inner.2.hasBudget none then (entry, inner.2)
      else
        let rest := buildAllFailureDetails np inner.2 frs
        (entry ++ rest.1, rest.2)

/-- `TOPAEncoder.encode`, returning the output tree together with the
budget state after the pass. -/
def encode (enc : TOPAEncoder) (d : ParsedTestData) : TOPAOutput × TokenBudget :=
  let summary := buildSummary d
  if enc.focus_mode = "summary" then
    let r := buildFilesWithIssues enc.normPath enc.budget d.file_results
    ({ version := "0.1", summary := summary, files_with_issues := some r.1 }, r.2)
  else if enc.focus_mode = "critical" then
    let r := buildCriticalFailures enc.normPath enc.budget d.file_results
    ({ version := "0.1", summary := summary, failures := some r.1 }, r.2)
  else if enc.focus_mode = "first-failure" then
    let r := buildFirstFailureDetails enc.normPath enc.budget d.file_results
    ({ version := "0.1", summary := summary, failures := some r.1 }, r.2)
  else
    let r := buildAllFailureDetails enc.normPath enc.budget d.file_results
    ({ version := "0.1", summary := summary, failures := some r.1 }, r.2)

end TOPAEncoder

/-! ### v0.3 encoder, failure content (`src/tpane/core/encoder_v3.py`)

The execution-context block is owned by the excluded environment glue;
the content builders below are the parts the claims concern. -/

structure V3FailureResult where
  line : Int
  description : String
  test_name : String
  expected : Option String := none
  actual : Option String := none
  diff_removed : Option String := none
  diff_added : Option String := none
deriving DecidableEq

namespace TOPAV3Encoder

/-- The per-test body of `_build_failures`. -/
def mkV3Failure (t : ParsedTestResult) : V3FailureResult :=
  { line := t.line.getD 0,
    description := if t.is_error then "error occurred" else "test failed",
    test_name := t.name,
    expected := t.expected,
    actual := t.actual }

/-- The inner test loop of `_build_failures` (append, then break once
the budget is gone). -/
def buildV3Tests (b : TokenBudget) :
    List ParsedTestResult → List V3FailureResult × TokenBudget
  | [] => ([], b)
  | t :: ts =>
    let v := mkV3Failure t
    if !b.hasBudget none then ([v], b)
    else
      let rest := buildV3Tests b ts
      (v :: rest.1, rest.2)

/-- `dict` insertion: a duplicate key keeps its original position but
takes the new value. -/
def dictInsert (m : List (String × List V3FailureResult)) (k : String)
    (v : List V3FailureResult) : List (String × List V3FailureResult) :=
  match m with
  | [] => [(k, v)]
  | (k', v') :: rest =>
    if k' = k then (k', v) :: rest else (k', v') :: dictInsert rest k v

/-- The focus-mode selection of the `_build_failures` loop. -/
def filteredOf (fm : FocusMode) (failedTests : List ParsedTestResult) :
    List ParsedTestResult :=
  match fm with
  | .critical => failedTests.filter (fun t => t.is_error)
  | .first_failure => failedTests.take 1
  | _ => failedTests

/-- The file loop of `_build_failures`, threading the shared dict
accumulator exactly as the source mutates it. -/
def buildFailuresGo (fm : FocusMode) (np : String → String) :
    List ParsedFileResult → List (String × List V3FailureResult) → TokenBudget →
    List (String × List V3FailureResult) × TokenBudget
  | [], acc, b => (acc, b)
  | fr :: frs, acc, b =>
    let failedTests := failedOf fr
    if failedTests.isEmpty then buildFailuresGo fm np frs acc b
    else
      let filtered := filteredOf fm failedTests
      if filtered.isEmpty then buildFailuresGo fm np frs acc b
      else
        let inner := buildV3Tests b filtered
        let acc' := if inner.1.isEmpty then acc
                    else dictInsert acc (np fr.file_path) inner.1
        if !inner.2.hasBudget none then (acc', inner.2)
        else buildFailuresGo fm np frs acc' inner.2

/-- `TOPAV3Encoder._build_failures`: mode-filtered non-passed results in
the order they appear in each file (no error-before-failure
reordering), grouped into a path-keyed dict. -/
def buildFailures (b : TokenBudget) (fm : FocusMode) (np : String → String)
    (frs : List ParsedFileResult) :
    List (String × List V3FailureResult) × TokenBudget :=
  buildFailuresGo fm np frs [] b

end TOPAV3Encoder

/-! ## Theorems about the claims -/

/-- C1 counterexample.  The TAP parser on the empty string returns zero
total tests but one file result (the synthetic `tap_output` file), not
an empty `file_results` list. -/
theorem c1_tap_empty_one_file_result :
    (TAPParser.parse "").total_tests = 0
    ∧ (TAPParser.parse "").file_results.length = 1 := by
  constructor <;> rfl

/-- C1 (amended): every parser returns a zero-total aggregate on the
empty string and never raises (the TAP, pytest and JUnit embeddings are
total functions; the RSpec parser returns `.ok`); `file_results` is
empty only for the pytest parser, while the TAP parser and the
text-scan fallbacks of the JUnit and RSpec parsers (the empty string is
neither well-formed XML nor decodable JSON, so their loaders fail)
produce exactly one file result containing zero test results. -/
theorem c1_parse_empty_amended :
    ((TAPParser.parse "").total_tests = 0
      ∧ (TAPParser.parse "").file_results =
          [{ file_path := "tap_output", test_results := [] }])
    ∧ ((PytestParser.parse "").total_tests = 0
      ∧ (PytestParser.parse "").file_results = [])
    ∧ (∀ m : String,
        (JUnitParser.parseWith (.error (.parseErr m)) "").total_tests = 0
        ∧ (JUnitParser.parseWith (.error (.parseErr m)) "").total_files = 1
        ∧ (JUnitParser.parseWith (.error (.parseErr m)) "").file_results =
            [{ file_path := "junit_parse_error.xml", test_results := [] }])
    ∧ (∀ m : String,
        RSpecParser.parseWith (.error m) "" =
          .ok { total_tests := 0, total_files := 1,
                file_results :=
                  [{ file_path := "rspec_parse_error.json", test_results := [] }] }) := by
  refine ⟨⟨rfl, rfl⟩, ⟨rfl, rfl⟩, fun m => ⟨rfl, rfl, rfl⟩, fun m => rfl⟩

/-- C2: the RSpec parser does not degrade to the text-scan on valid
JSON whose root is not a conforming object — the `ValueError` its
validation raises is not caught by the `except json.JSONDecodeError`
clause, so `parse("[]")` propagates an exception instead of returning a
`ParsedTestData`. -/
theorem c2_rspec_array_root_raises :
    RSpecParser.parseWith (.ok (.arr [])) "[]" =
      .error (.valueError "Expected JSON object at root")
    ∧ RSpecParser.parseWith (.ok (.obj [("summary", .obj [])]))
        "\x7b\"summary\": \x7b\x7d\x7d" =
      .error (.valueError "Missing examples in RSpec JSON") := by
  constructor <;> rfl

/-- C3: the TAP TODO directive inverts the pass bit — `not ok 1 - x # TODO`
is recorded as passed, `ok 1 - x # TODO` is recorded as a failed
(failure-classified) test carrying the synthetic diagnostic, and a SKIP
directive records the test as passed for both statuses. -/
theorem c3_tap_directive_inversion :
    (TAPParser.parse "not ok 1 - x # TODO").file_results =
      [{ file_path := "tap_output",
         test_results := [{ name := "x", line := some 1, passed := true }] }]
    ∧ (TAPParser.parse "ok 1 - x # TODO").file_results =
      [{ file_path := "tap_output",
         test_results :=
           [{ name := "x", line := some 1, passed := false,
              expected := some "test to pass",
              actual := some "Unexpected pass - TODO item succeeded" }] }]
    ∧ (TAPParser.parse "not ok 1 - x # SKIP reason").file_results =
      [{ file_path := "tap_output",
         test_results := [{ name := "x", line := some 1, passed := true }] }]
    ∧ (TAPParser.parse "ok 1 - x # SKIP").file_results =
      [{ file_path := "tap_output",
         test_results := [{ name := "x", line := some 1, passed := true }] }] := by
  refine ⟨rfl, rfl, rfl, rfl⟩

/-- C9: whenever a positive plan count disagrees with the number of
parsed results, the TAP parser appends exactly one synthetic
error-classified result describing the mismatch to its single file
result and increments both the total and the error count by one. -/
theorem c9_tap_plan_mismatch (content : String)
    (hp : 0 < (TAPParser.tapScan content).planned)
    (hn : (TAPParser.tapScan content).results.length ≠ (TAPParser.tapScan content).planned) :
    (TAPParser.parse content).total_tests =
      (((TAPParser.tapScan content).results.length + 1 : Nat) : Int)
    ∧ (TAPParser.parse content).error_tests =
      (((TAPParser.tapScan content).results.countP (fun t => t.is_error) + 1 : Nat) : Int)
    ∧ (TAPParser.parse content).file_results =
      [{ file_path := (TAPParser.tapScan content).currentFile,
         test_results := (TAPParser.tapScan content).results
           ++ [TAPParser.planMismatchResult (TAPParser.tapScan content).planned
                 (TAPParser.tapScan content).results.length] }]
    ∧ (TAPParser.planMismatchResult (TAPParser.tapScan content).planned
         (TAPParser.tapScan content).results.length).passed = false
    ∧ (TAPParser.planMismatchResult (TAPParser.tapScan content).planned
         (TAPParser.tapScan content).results.length).is_error = true := by
  have h : (TAPParser.tapScan content).planned > 0
      ∧ (TAPParser.tapScan content).results.length ≠ (TAPParser.tapScan content).planned :=
    ⟨hp, hn⟩
  unfold TAPParser.parse
  simp only [if_pos h]
  exact ⟨trivial, trivial, trivial, rfl, rfl⟩

/-- C9 witness: `1..2` followed by a single result triggers the
mismatch path. -/
theorem c9_tap_plan_mismatch_witness :
    (TAPParser.parse "1..2\nok 1 - a").total_tests = 2
    ∧ (TAPParser.parse "1..2\nok 1 - a").error_tests = 1 := by
  have h := c9_tap_plan_mismatch "1..2\nok 1 - a" (by decide) (by decide)
  exact ⟨h.1.trans (by decide), h.2.1.trans (by decide)⟩

/-! Budget-frame lemmas for C10: every builder of the v0.2 encoder
returns the budget it was given (none of them calls `consume`,
`force_consume` or `reserve`, and `smart_truncate` reads only). -/

lemma buildTestResult_budget (b : TokenBudget) (t : ParsedTestResult) :
    (TOPAEncoder.buildTestResult b t).2 = b := by
  unfold TOPAEncoder.buildTestResult
  split <;> rfl

lemma buildAllTests_budget (ts : List ParsedTestResult) :
    ∀ b, (TOPAEncoder.buildAllTests b ts).2 = b := by
  induction ts with
  | nil => intro b; rfl
  | cons t ts ih =>
    intro b
    unfold TOPAEncoder.buildAllTests
    dsimp only
    rw [buildTestResult_budget]
    split
    · rfl
    · exact ih b

lemma buildCriticalTests_budget (ts : List ParsedTestResult) :
    ∀ b, (TOPAEncoder.buildCriticalTests b ts).2 = b := by
  induction ts with
  | nil => intro b; rfl
  | cons t ts ih =>
    intro b
    unfold TOPAEncoder.buildCriticalTests
    dsimp only
    split
    · rfl
    · exact ih b

lemma buildFilesWithIssues_budget (np : String → String)
    (frs : List ParsedFileResult) :
    ∀ b, (TOPAEncoder.buildFilesWithIssues np b frs).2 = b := by
  induction frs with
  | nil => intro b; rfl
  | cons fr frs ih =>
    intro b
    unfold TOPAEncoder.buildFilesWithIssues
    dsimp only
    split
    · split
      · rfl
      · exact ih b
    · exact ih b

lemma buildCriticalFailures_budget (np : String → String)
    (frs : List ParsedFileResult) :
    ∀ b, (TOPAEncoder.buildCriticalFailures np b frs).2 = b := by
  induction frs with
  | nil => intro b; rfl
  | cons fr frs ih =>
    intro b
    unfold TOPAEncoder.buildCriticalFailures
    dsimp only
    rw [buildCriticalTests_budget]
    split
    · exact ih b
    · split
      · rfl
      · exact ih b

lemma buildFirstFailureDetails_budget (np : String → String)
    (frs : List ParsedFileResult) :
    ∀ b, (TOPAEncoder.buildFirstFailureDetails np b frs).2 = b := by
  induction frs with
  | nil => intro b; rfl
  | cons fr frs ih =>
    intro b
    unfold TOPAEncoder.buildFirstFailureDetails
    dsimp only
    split
    · exact ih b
    · rw [buildTestResult_budget]
      split
      · rfl
      · exact ih b

lemma buildAllFailureDetails_budget (np : String → String)
    (frs : List ParsedFileResult) :
    ∀ b, (TOPAEncoder.buildAllFailureDetails np b frs).2 = b := by
  induction frs with
  | nil => intro b; rfl
  | cons fr frs ih =>
    intro b
    unfold TOPAEncoder.buildAllFailureDetails
    dsimp only
    rw [buildAllTests_budget]
    split
    · exact ih b
    · split
      · rfl
      · exact ih b

/-- C10: one v0.2 `encode` pass never increases the budget's `consumed`
field — the final budget equals the initial one on every focus mode and
input, and the initial `consumed` is the fixed structural overhead
constant 50 installed by `__post_init__`; hence the `has_budget` /
`used_percentage` gates depend only on the fixed limit throughout the
pass. -/
theorem c10_encode_budget_frame (fm : String) (lim : Int) (np : String → String)
    (d : ParsedTestData) :
    (TOPAEncoder.encode { focus_mode := fm, budget := .postInit lim, normPath := np } d).2
        = TokenBudget.postInit lim
    ∧ (TokenBudget.postInit lim).consumed = TokenBudget.YAML_OVERHEAD
    ∧ TokenBudget.YAML_OVERHEAD = 50 := by
  refine ⟨?_, rfl, rfl⟩
  unfold TOPAEncoder.encode
  split
  · exact buildFilesWithIssues_budget np d.file_results _
  · split
    · exact buildCriticalFailures_budget np d.file_results _
    · split
      · exact buildFirstFailureDetails_budget np d.file_results _
      · exact buildAllFailureDetails_budget np d.file_results _

/-- The float model of `estimate_tokens` on non-empty text: the source
computes `int((charCount + yamlChars * 0.5) / 4)`, whose exact
(rational) value floors to the natural-number division the definition
uses. -/
lemma estimateTokens_float_model (text : List Char) (h : text ≠ []) :
    (TokenBudget.estimateTokens text : ℤ) =
      max 1 ⌊(((stripCs text).length : ℚ)
              + (TokenBudget.yamlChars text : ℚ) / 2) / 4⌋ := by
  unfold TokenBudget.estimateTokens
  rw [if_neg h]
  have hq : (((stripCs text).length : ℚ) + (TokenBudget.yamlChars text : ℚ) / 2) / 4
      = (((2 * (stripCs text).length + TokenBudget.yamlChars text : ℕ) : ℚ)
          / ((8 : ℕ) : ℚ)) := by
    push_cast
    ring
  rw [hq, Rat.floor_natCast_div_natCast]
  push_cast
  omega

/-- C6 counterexample: the structural-punctuation adjustment is upward,
not downward — eight colons estimate to 3 tokens while eight plain
characters of the same length estimate to 2. -/
theorem c6_estimate_tokens_counterexample :
    ("::::::::".data.length = "aaaaaaaa".data.length)
    ∧ TokenBudget.estimateTokens "::::::::".data = 3
    ∧ TokenBudget.estimateTokens "aaaaaaaa".data = 2
    ∧ TokenBudget.estimateTokens "aaaaaaaa".data
        < TokenBudget.estimateTokens "::::::::".data := by
  refine ⟨rfl, ?_, ?_, ?_⟩ <;> decide

/-- C6 (amended): `estimate_tokens` is 0 on the empty string, and on
non-empty text equals the trimmed character count adjusted UPWARD by
half a character per structural punctuation character (counted over the
whole text), divided by the characters-per-token constant 4, floored,
and floored again at 1; consequently the estimate never falls below
that of the same trimmed length without punctuation. -/
theorem c6_estimate_tokens_formula (text : List Char) :
    (text = [] → TokenBudget.estimateTokens text = 0)
    ∧ (text ≠ [] → (TokenBudget.estimateTokens text : ℤ) =
        max 1 ⌊(((stripCs text).length : ℚ)
                + (TokenBudget.yamlChars text : ℚ) / 2) / 4⌋)
    ∧ (text ≠ [] →
        max 1 ((stripCs text).length / 4) ≤ TokenBudget.estimateTokens text) := by
  refine ⟨fun h => by simp [TokenBudget.estimateTokens, h],
         estimateTokens_float_model text, fun hne => ?_⟩
  unfold TokenBudget.estimateTokens
  rw [if_neg hne]
  have hdiv : (stripCs text).length / 4
      ≤ (2 * (stripCs text).length + TokenBudget.yamlChars text) / 8 := by
    calc (stripCs text).length / 4 = 2 * (stripCs text).length / 8 := by omega
    _ ≤ (2 * (stripCs text).length + TokenBudget.yamlChars text) / 8 :=
        Nat.div_le_div_right (Nat.le_add_right _ _)
  exact max_le_max (le_refl 1) hdiv

/-- C6 witness: the zero case and the amended formula discharged at
concrete inputs. -/
theorem c6_estimate_tokens_formula_witness :
    TokenBudget.estimateTokens [] = 0
    ∧ ("a:b".data ≠ [])
    ∧ max 1 ((stripCs "a:b".data).length / 4)
        ≤ TokenBudget.estimateTokens "a:b".data := by
  exact ⟨(c6_estimate_tokens_formula []).1 rfl, by decide,
         (c6_estimate_tokens_formula "a:b".data).2.2 (by decide)⟩

/-- Every branch of `_truncate_intelligently` returns at most as many
characters as it was given (the truncation target is at least 10 at
every call site). -/
lemma truncIntelligently_length (text : List Char) (tc : Int) (h10 : 10 ≤ tc) :
    (TokenBudget.truncIntelligently text tc).length ≤ text.length := by
  unfold TokenBudget.truncIntelligently
  split
  · exact le_refl _
  · rename_i hlong
    have hlen : tc < (text.length : Int) := by omega
    split
    · rename_i h20
      simp only [List.length_append, List.length_take, List.length_cons,
        List.length_nil]
      omega
    · rename_i h20
      dsimp only
      split <;> split <;>
        simp only [List.length_append, List.length_take, List.length_cons,
          List.length_nil] <;> omega

/-- C7 counterexample: a text whose estimate already fits is returned
unchanged even when the target (1 token) is at or below the
minimum-meaningful-length threshold (targets up to 3 tokens yield a
character target below 10), so the claimed
"empty string at or below the threshold" fails. -/
theorem c7_smart_truncate_counterexample :
    TokenBudget.smartTruncate (TokenBudget.postInit 1000) "hi".data (some 1) = "hi".data
    ∧ TokenBudget.smartTruncate (TokenBudget.postInit 1000) "hi".data (some 1) ≠ []
    ∧ TokenBudget.targetCharsOf 1 < 10 := by
  refine ⟨by decide, by decide, by decide⟩

/-- C7 (amended): `smart_truncate` never returns more characters than
its input; it returns the empty string whenever the effective token
target is not positive; it returns the input unchanged whenever the
estimate fits a positive target (even one at or below the threshold);
and when the text does not fit and the derived character target
`int(target * 4 * 0.8)` is below the minimum-meaningful length 10, it
returns the empty string. -/
theorem c7_smart_truncate_amended (b : TokenBudget) (text : List Char)
    (mt : Option Int) :
    (TokenBudget.smartTruncate b text mt).length ≤ text.length
    ∧ (mt.getD b.remaining ≤ 0 → TokenBudget.smartTruncate b text mt = [])
    ∧ (0 < mt.getD b.remaining →
        (TokenBudget.estimateTokens text : Int) ≤ mt.getD b.remaining →
        TokenBudget.smartTruncate b text mt = text)
    ∧ (mt.getD b.remaining < (TokenBudget.estimateTokens text : Int) →
        TokenBudget.targetCharsOf (mt.getD b.remaining) < 10 →
        TokenBudget.smartTruncate b text mt = []) := by
  unfold TokenBudget.smartTruncate
  by_cases hempty : text = []
  · subst hempty
    simp
  · rw [if_neg hempty]
    dsimp only
    by_cases h0 : mt.getD b.remaining ≤ 0
    · rw [if_pos h0]
      refine ⟨by simp, fun _ => rfl, fun hpos _ => absurd h0 (by omega), fun _ _ => rfl⟩
    · rw [if_neg h0]
      by_cases hfit : (TokenBudget.estimateTokens text : Int) ≤ mt.getD b.remaining
      · rw [if_pos hfit]
        refine ⟨le_refl _, fun hle => absurd hle h0, fun _ _ => rfl,
                fun hlt _ => absurd hfit (by omega)⟩
      · rw [if_neg hfit]
        by_cases htc : TokenBudget.targetCharsOf (mt.getD b.remaining) < 10
        · rw [if_pos htc]
          exact ⟨by simp, fun hle => absurd hle h0, fun _ hfit2 => absurd hfit2 hfit,
                 fun _ _ => rfl⟩
        · rw [if_neg htc]
          exact ⟨truncIntelligently_length text _ (by omega),
                 fun hle => absurd hle h0, fun _ hfit2 => absurd hfit2 hfit,
                 fun _ htc2 => absurd htc2 htc⟩

/-- C7 witness: the fits-unchanged part and the below-threshold part of
the amended claim at concrete inputs. -/
theorem c7_smart_truncate_amended_witness :
    TokenBudget.smartTruncate (TokenBudget.postInit 1000) "short".data (some 100)
      = "short".data
    ∧ TokenBudget.smartTruncate (TokenBudget.postInit 1000)
        "this text does not fit a tiny target".data (some 2) = [] := by
  constructor
  · exact (c7_smart_truncate_amended (TokenBudget.postInit 1000) "short".data
      (some 100)).2.2.1 (by decide) (by decide)
  · exact (c7_smart_truncate_amended (TokenBudget.postInit 1000)
      "this text does not fit a tiny target".data (some 2)).2.2.2 (by decide) (by decide)

/-- The derived-count identity of the canonical schema. -/
def sumIdentity (d : ParsedTestData) : Prop :=
  d.passed_tests + d.failed_tests + d.error_tests = d.total_tests

/-- Each result is counted by exactly one of the three tallies. -/
lemma countP_partition (l : List ParsedTestResult) :
    l.countP (fun t => t.passed) + l.countP (fun t => !t.passed && !t.is_error)
      + l.countP (fun t => t.is_error) = l.length := by
  induction l with
  | nil => rfl
  | cons t ts ih =>
    simp only [List.countP_cons, List.length_cons]
    have hone : (if t.passed = true then 1 else 0)
        + (if (!t.passed && !t.is_error) = true then 1 else 0)
        + (if t.is_error = true then 1 else 0) = 1 := by
      cases hp : t.passed <;> rcases he : t.error_message with _ | m <;>
        simp [ParsedTestResult.is_error, hp, he]
    omega

/-- The per-file tallies of a grouped result set partition its size. -/
lemma grouped_countP_partition (ls : List (List ParsedTestResult)) :
    (ls.map (fun ts => ts.countP (fun t => t.passed))).sum
      + (ls.map (fun ts => ts.countP (fun t => !t.passed && !t.is_error))).sum
      + (ls.map (fun ts => ts.countP (fun t => t.is_error))).sum
      = (ls.map List.length).sum := by
  induction ls with
  | nil => rfl
  | cons ts rest ih =>
    simp only [List.map_cons, List.sum_cons]
    have := countP_partition ts
    omega

lemma tap_sum_identity (content : String) : sumIdentity (TAPParser.parse content) := by
  unfold sumIdentity TAPParser.parse
  dsimp only
  have hpart := countP_partition (TAPParser.tapScan content).results
  split <;> dsimp only <;> omega

lemma files_countP_partition (frs : List ParsedFileResult) :
    (frs.map (fun f => f.test_results.countP (fun t => t.passed))).sum
      + (frs.map (fun f =>
          f.test_results.countP (fun t => !t.passed && !t.is_error))).sum
      + (frs.map (fun f => f.test_results.countP (fun t => t.is_error))).sum
      = (frs.map (fun f => f.test_results.length)).sum := by
  induction frs with
  | nil => rfl
  | cons fr rest ih =>
    simp only [List.map_cons, List.sum_cons]
    have := countP_partition fr.test_results
    omega

lemma buildTestData_sum_identity (frs : List ParsedFileResult) :
    sumIdentity (buildTestData frs) := by
  unfold sumIdentity buildTestData
  split
  · simp
  · dsimp only
    have h := files_countP_partition frs
    omega

lemma pytest_sum_identity (content : String)
    (h : (PytestParser.pytestScan content).total = 0) :
    sumIdentity (PytestParser.parse content) := by
  unfold sumIdentity PytestParser.parse
  dsimp only
  rw [if_pos h, if_pos h, if_pos h, if_pos h]
  have hpart := grouped_countP_partition
    ((PytestParser.pytestScan content).fileTests.map (fun kv => kv.2))
  omega

/-- C4: derived counts always satisfy `passed + failed + errors = total`:
for the TAP parser on every input (including after the synthetic
plan-mismatch append), for the generic `_build_test_data` derivation
the fallback paths use, and for the pytest parser whenever no declared
summary was found (its scan total is 0). -/
theorem c4_counts_sum_identity :
    (∀ content : String, sumIdentity (TAPParser.parse content))
    ∧ (∀ frs : List ParsedFileResult, sumIdentity (buildTestData frs))
    ∧ (∀ content : String, (PytestParser.pytestScan content).total = 0 →
        sumIdentity (PytestParser.parse content)) :=
  ⟨tap_sum_identity, buildTestData_sum_identity, pytest_sum_identity⟩

/-- C4 witness: a pytest log with one FAILED line and no summary line. -/
theorem c4_counts_sum_identity_witness :
    (PytestParser.pytestScan "FAILED a.py::t1 - boom").total = 0
    ∧ sumIdentity (PytestParser.parse "FAILED a.py::t1 - boom") :=
  ⟨by decide, c4_counts_sum_identity.2.2 "FAILED a.py::t1 - boom" (by decide)⟩

/-- The classification invariant of the canonical schema: no result is
both passed and carrying an error message. -/
def resultInv (t : ParsedTestResult) : Prop :=
  t.passed = true → t.error_message = none

/-- The invariant over a whole aggregate. -/
def dataInv (d : ParsedTestData) : Prop :=
  ∀ fr ∈ d.file_results, ∀ t ∈ fr.test_results, resultInv t

lemma inv_snoc {rs : List ParsedTestResult} {x : ParsedTestResult}
    (h : ∀ t ∈ rs, resultInv t) (hx : resultInv x) :
    ∀ t ∈ rs ++ [x], resultInv t := by
  intro t ht
  rcases List.mem_append.mp ht with h1 | h2
  · exact h t h1
  · rw [List.mem_singleton.mp h2]
    exact hx

lemma assocAppend_inv {m : List (String × List ParsedTestResult)} {k : String}
    {v : ParsedTestResult}
    (h : ∀ kv ∈ m, ∀ t ∈ kv.2, resultInv t) (hv : resultInv v) :
    ∀ kv ∈ assocAppend m k v, ∀ t ∈ kv.2, resultInv t := by
  induction m with
  | nil =>
    intro kv hkv
    simp only [assocAppend, List.mem_singleton] at hkv
    subst hkv
    intro t ht
    rw [List.mem_singleton.mp ht]
    exact hv
  | cons kv0 rest ih =>
    intro kv hkv
    unfold assocAppend at hkv
    split at hkv
    · rcases List.mem_cons.mp hkv with heq | hmem
      · rw [heq]
        exact inv_snoc (h kv0 (List.mem_cons_self _ _)) hv
      · exact h kv (List.mem_cons_of_mem _ hmem)
    · rcases List.mem_cons.mp hkv with heq | hmem
      · rw [heq]
        exact h kv0 (List.mem_cons_self _ _)
      · exact ih (fun kv2 hkv2 => h kv2 (List.mem_cons_of_mem _ hkv2)) kv hmem

/-- Every result the shared text-scan fallback manufactures satisfies
the invariant: a passed line contains no `error` keyword, so no error
message is attached. -/
lemma textScanStep_inv (kws : List (List Char)) (tag ctx : String)
    {acc : List ParsedTestResult} (l : List Char)
    (h : ∀ t ∈ acc, resultInv t) :
    ∀ t ∈ textScanStep kws tag ctx acc l, resultInv t := by
  unfold textScanStep
  dsimp only
  split
  · exact h
  · split
    · apply inv_snoc h
      intro hp
      dsimp only at hp ⊢
      rw [Bool.and_eq_true, Bool.not_eq_true', Bool.not_eq_true'] at hp
      simp only [hp.2]
      rfl
    · exact h

lemma textScan_foldl_inv (kws : List (List Char)) (tag ctx : String) :
    ∀ (lines : List (List Char)) (acc : List ParsedTestResult),
      (∀ t ∈ acc, resultInv t) →
      ∀ t ∈ lines.foldl (textScanStep kws tag ctx) acc, resultInv t := by
  intro lines
  induction lines with
  | nil => intro acc h; exact h
  | cons l ls ih =>
    intro acc h
    exact ih _ (textScanStep_inv kws tag ctx l h)

/-- Every result one TAP line appends satisfies the invariant: a result
only receives diagnostics (and possibly an error message) when its pass
bit is false, and a passed result is constructed with no message. -/
lemma tapAttachDiag_passed (base : ParsedTestResult) (pending : List (List Char)) :
    (TAPParser.tapAttachDiag base pending).passed = base.passed := by
  unfold TAPParser.tapAttachDiag
  dsimp only
  split
  · rfl
  · split
    · split
      · rfl
      · rfl
    · rfl

lemma tapEntryShape_inv (passed : Bool) (pend : List (List Char))
    (base : ParsedTestResult) (hb : base.passed = passed)
    (hem : base.error_message = none) :
    resultInv (if !passed && !pend.isEmpty then
        (TAPParser.tapAttachDiag base pend, ([] : List (List Char)))
      else (base, pend)).1 := by
  split
  · rename_i hcond
    rw [Bool.and_eq_true, Bool.not_eq_true'] at hcond
    intro hp
    dsimp only at hp
    rw [tapAttachDiag_passed, hb, hcond.1] at hp
    cases hp
  · intro _
    exact hem

lemma tapTestEntry_inv (idx : Nat) (st : TAPParser.TapState) (okSt : Bool)
    (numO : Option Nat) (g3 : List Char) :
    resultInv (TAPParser.tapTestEntry idx st okSt numO g3).1 := by
  unfold TAPParser.tapTestEntry
  exact tapEntryShape_inv _ _ _ rfl rfl

lemma tapStep_inv (idx : Nat) (l : List Char) (st : TAPParser.TapState)
    (h : ∀ t ∈ st.results, resultInv t) :
    ∀ t ∈ (TAPParser.tapStep idx l st).results, resultInv t := by
  unfold TAPParser.tapStep
  dsimp only
  split
  · exact h
  · split
    · split
      · split
        · exact h
        · split
          · exact h
          · exact h
      · exact h
    · split
      · exact inv_snoc h (tapTestEntry_inv _ _ _ _ _)
      · split
        · split
          · exact h
          · split
            · exact h
            · split
              · exact h
              · exact h
        · exact h

lemma tapScanLines_inv :
    ∀ (ls : List (List Char)) (i : Nat) (st : TAPParser.TapState),
      (∀ t ∈ st.results, resultInv t) →
      ∀ t ∈ (TAPParser.tapScanLines ls i st).results, resultInv t := by
  intro ls
  induction ls with
  | nil =>
    intro i st h
    exact h
  | cons l ls ih =>
    intro i st h
    exact ih (i + 1) _ (tapStep_inv i l st h)

lemma planMismatch_inv (p n : Nat) :
    resultInv (TAPParser.planMismatchResult p n) := by
  intro hp
  cases hp

/-- The whole TAP aggregate satisfies the invariant. -/
lemma tap_parse_inv (content : String) : dataInv (TAPParser.parse content) := by
  have hscan : ∀ x ∈ (TAPParser.tapScan content).results, resultInv x := by
    apply tapScanLines_inv _ 0
    intro x hx
    cases hx
  intro fr hfr
  unfold TAPParser.parse at hfr
  dsimp only at hfr
  rw [List.mem_singleton] at hfr
  subst hfr
  intro t ht
  dsimp only at ht
  split at ht
  · exact inv_snoc hscan (planMismatch_inv _ _) t ht
  · exact hscan t ht

/-- Every result one pytest line adds to the per-file map satisfies the
invariant: FAILED/ERROR lines construct non-passed results, and PASSED
lines construct results with no message. -/
lemma pytestStep_inv (w : List (List Char)) (l : List Char)
    (st : PytestParser.PyScan)
    (h : ∀ kv ∈ st.fileTests, ∀ t ∈ kv.2, resultInv t) :
    ∀ kv ∈ (PytestParser.pytestStep w l st).fileTests, ∀ t ∈ kv.2, resultInv t := by
  have hx : ∀ x : ParsedTestResult, x.passed = false → resultInv x := by
    intro x hxf hxt
    rw [hxf] at hxt
    cases hxt
  unfold PytestParser.pytestStep
  dsimp only
  split
  · exact h
  · split
    · exact h
    · split
      · apply assocAppend_inv h
        apply hx
        split
        · rfl
        · split
          · rfl
          · split
            · rfl
            · rfl
      · split
        · apply assocAppend_inv h
          apply hx
          rfl
        · split
          · apply assocAppend_inv h
            intro _
            rfl
          · exact h

lemma pytestLoop_inv (allLines : List (List Char)) :
    ∀ (ls : List (List Char)) (i : Nat) (st : PytestParser.PyScan),
      (∀ kv ∈ st.fileTests, ∀ t ∈ kv.2, resultInv t) →
      ∀ kv ∈ (PytestParser.pytestLoop allLines ls i st).fileTests,
        ∀ t ∈ kv.2, resultInv t := by
  intro ls
  induction ls with
  | nil =>
    intro i st h
    exact h
  | cons l ls ih =>
    intro i st h
    exact ih _ _ (pytestStep_inv _ _ _ h)

lemma pytestScan_inv (content : String) :
    ∀ kv ∈ (PytestParser.pytestScan content).fileTests, ∀ t ∈ kv.2, resultInv t := by
  unfold PytestParser.pytestScan
  apply pytestLoop_inv _ _ 0
  intro kv hkv
  cases hkv

lemma genericResults_inv (f e p : Int) :
    ∀ t ∈ PytestParser.genericResults f e p, resultInv t := by
  intro t ht
  unfold PytestParser.genericResults at ht
  rcases List.mem_append.mp ht with h1 | h2
  · rcases List.mem_append.mp h1 with h3 | h4
    · rcases List.mem_map.mp h3 with ⟨i, _, heq⟩
      subst heq
      intro hp
      cases hp
    · rcases List.mem_map.mp h4 with ⟨i, _, heq⟩
      subst heq
      intro hp
      cases hp
  · rcases List.mem_map.mp h2 with ⟨i, _, heq⟩
    subst heq
    intro _
    rfl

/-- The whole pytest aggregate satisfies the invariant. -/
lemma pytest_parse_inv (content : String) : dataInv (PytestParser.parse content) := by
  have hgen : ∀ (f e p : Int) (fr : ParsedFileResult),
      fr ∈ [({ file_path := "pytest_output",
               test_results := PytestParser.genericResults f e p } : ParsedFileResult)] →
      ∀ t ∈ fr.test_results, resultInv t := by
    intro f e p fr hfr
    rw [List.mem_singleton] at hfr
    subst hfr
    intro t ht
    exact genericResults_inv _ _ _ t ht
  have hmap : ∀ fr ∈ (PytestParser.pytestScan content).fileTests.map
      (fun kv => ({ file_path := ⟨PytestParser.cleanFilePath kv.1.data⟩,
                    test_results := kv.2 } : ParsedFileResult)),
      ∀ t ∈ fr.test_results, resultInv t := by
    intro fr hfr
    rcases List.mem_map.mp hfr with ⟨kv, hkv, heq⟩
    subst heq
    intro t ht
    exact pytestScan_inv content kv hkv t ht
  intro fr hfr
  unfold PytestParser.parse at hfr
  dsimp only at hfr
  split at hfr
  · split at hfr
    · exact hgen _ _ _ fr hfr
    · exact hmap fr hfr
  · split at hfr
    · exact hgen _ _ _ fr hfr
    · exact hmap fr hfr

/-- Every result parsed from a `testcase` element satisfies the
invariant: error/failure children force the pass bit off, and a clean
testcase gets no message. -/
lemma parseTestcase_inv (tc : XElem) :
    resultInv (JUnitParser.parseTestcase tc) := by
  unfold JUnitParser.parseTestcase
  dsimp only
  split
  · intro hp
    cases hp
  · split
    · intro hp
      cases hp
    · intro _
      rfl

lemma buildTestData_inv (frs : List ParsedFileResult)
    (h : ∀ fr ∈ frs, ∀ t ∈ fr.test_results, resultInv t) :
    dataInv (buildTestData frs) := by
  intro fr hfr
  unfold buildTestData at hfr
  split at hfr
  · exact h fr hfr
  · exact h fr hfr

lemma junit_parseAsText_inv (cleaned : List Char) (ctx : String) :
    dataInv (JUnitParser.parseAsText cleaned ctx) := by
  unfold JUnitParser.parseAsText
  apply buildTestData_inv
  intro fr hfr
  rw [List.mem_singleton] at hfr
  subst hfr
  intro t ht
  refine textScan_foldl_inv _ _ _ _ [] ?_ t ht
  intro x hx
  cases hx

lemma parseSuitesLoop_inv :
    ∀ (suites : List XElem)
      (acc : List ParsedFileResult × Int × Int × Int × ℚ),
      (∀ fr ∈ acc.1, ∀ t ∈ fr.test_results, resultInv t) →
      ∀ res, JUnitParser.parseSuitesLoop suites acc = .ok res →
      ∀ fr ∈ res.1, ∀ t ∈ fr.test_results, resultInv t := by
  intro suites
  induction suites with
  | nil =>
    intro acc h res heq
    cases heq
    exact h
  | cons ts rest ih =>
    intro acc h res heq
    obtain ⟨frs, tot, fails, errs, time⟩ := acc
    rw [JUnitParser.parseSuitesLoop.eq_def] at heq
    dsimp only at heq
    cases h1 : JUnitParser.suiteInt ts "tests" with
    | error e =>
      rw [h1] at heq
      cases heq
    | ok v1 =>
      rw [h1] at heq
      dsimp only [bind, Except.bind] at heq
      cases h2 : JUnitParser.suiteInt ts "failures" with
      | error e =>
        rw [h2] at heq
        cases heq
      | ok v2 =>
        rw [h2] at heq
        dsimp only at heq
        cases h3 : JUnitParser.suiteInt ts "errors" with
        | error e =>
          rw [h3] at heq
          cases heq
        | ok v3 =>
          rw [h3] at heq
          dsimp only at heq
          cases h4 : JUnitParser.suiteFloat ts "time" with
          | error e =>
            rw [h4] at heq
            cases heq
          | ok v4 =>
            rw [h4] at heq
            dsimp only at heq
            refine ih _ ?_ res heq
            intro fr hfr
            rcases List.mem_append.mp hfr with hm | hs
            · exact h fr hm
            · rw [List.mem_singleton.mp hs]
              intro t ht
              rcases List.mem_map.mp ht with ⟨tc, _, heqt⟩
              subst heqt
              exact parseTestcase_inv tc

lemma parseTestsuites_inv (suites : List XElem) (d : ParsedTestData)
    (heq : JUnitParser.parseTestsuites suites = .ok d) : dataInv d := by
  unfold JUnitParser.parseTestsuites at heq
  cases hacc : JUnitParser.parseSuitesLoop suites ([], 0, 0, 0, 0) with
  | error e =>
    rw [hacc] at heq
    cases heq
  | ok acc =>
    rw [hacc] at heq
    dsimp only [bind, Except.bind] at heq
    cases heq
    intro fr hfr
    dsimp only at hfr
    refine parseSuitesLoop_inv suites _ ?_ acc hacc fr hfr
    intro fr2 h2
    cases h2

/-- The whole JUnit aggregate satisfies the invariant, whatever the XML
loader returned. -/
lemma junit_parseWith_inv (load : Except XLoadErr XElem)
    (content : String) : dataInv (JUnitParser.parseWith load content) := by
  cases load with
  | error e =>
    cases e
    · exact junit_parseAsText_inv _ _
    · exact junit_parseAsText_inv _ _
    · exact junit_parseAsText_inv _ _
  | ok root =>
    unfold JUnitParser.parseWith
    dsimp only
    split
    · exact junit_parseAsText_inv _ _
    · rename_i suites hsuites
      cases hts : JUnitParser.parseTestsuites suites with
      | error m => exact junit_parseAsText_inv _ _
      | ok d => exact parseTestsuites_inv _ d hts

lemma resultInv_of_failed {x : ParsedTestResult} (h : x.passed = false) :
    resultInv x := by
  intro hp
  rw [h] at hp
  cases hp

/-- Every result `_parse_example` successfully returns satisfies the
invariant: an error message is only attached under the not-passed
branch. -/
lemma parseExample_inv (ex : JValue) (r : ParsedTestResult)
    (heq : RSpecParser.parseExample ex = .ok r) : resultInv r := by
  cases ex with
  | null => unfold RSpecParser.parseExample at heq; cases heq
  | bool b => unfold RSpecParser.parseExample at heq; cases heq
  | num q => unfold RSpecParser.parseExample at heq; cases heq
  | str s => unfold RSpecParser.parseExample at heq; cases heq
  | arr l => unfold RSpecParser.parseExample at heq; cases heq
  | obj ek =>
    unfold RSpecParser.parseExample at heq
    dsimp only at heq
    repeat' split at heq
    all_goals cases heq
    all_goals intro hpt
    all_goals dsimp only at hpt
    all_goals first
      | rfl
      | exact absurd hpt (by assumption)
      | simp_all

lemma groupExamples_inv :
    ∀ (exs : List JValue) (acc : List (String × List ParsedTestResult)),
      (∀ kv ∈ acc, ∀ t ∈ kv.2, resultInv t) →
      ∀ res, RSpecParser.groupExamples exs acc = .ok res →
      ∀ kv ∈ res, ∀ t ∈ kv.2, resultInv t := by
  intro exs
  induction exs with
  | nil =>
    intro acc h res heq
    cases heq
    exact h
  | cons ex rest ih =>
    intro acc h res heq
    rw [RSpecParser.groupExamples.eq_def] at heq
    dsimp only at heq
    cases h1 : RSpecParser.parseExample ex with
    | error e =>
      rw [h1] at heq
      cases heq
    | ok r =>
      rw [h1] at heq
      dsimp only [bind, Except.bind] at heq
      cases h2 : RSpecParser.cleanRspecFilePath (RSpecParser.exampleFilePathRaw ex) with
      | error e =>
        rw [h2] at heq
        cases heq
      | ok fp =>
        rw [h2] at heq
        dsimp only at heq
        exact ih _ (assocAppend_inv h (parseExample_inv ex r h1)) res heq

lemma rspec_parseAsText_inv (content : List Char) (ctx : String) :
    dataInv (RSpecParser.parseAsText content ctx) := by
  unfold RSpecParser.parseAsText
  apply buildTestData_inv
  intro fr hfr
  rw [List.mem_singleton] at hfr
  subst hfr
  intro t ht
  refine textScan_foldl_inv _ _ _ _ [] ?_ t ht
  intro x hx
  cases hx

lemma parseRspecJson_inv (kvs : List (String × JValue)) (d : ParsedTestData)
    (heq : RSpecParser.parseRspecJson kvs = .ok d) : dataInv d := by
  unfold RSpecParser.parseRspecJson at heq
  cases hsum : (kvs.lookup "summary").getD (JValue.obj []) with
  | null => rw [hsum] at heq; cases heq
  | bool b => rw [hsum] at heq; cases heq
  | num q => rw [hsum] at heq; cases heq
  | str s => rw [hsum] at heq; cases heq
  | arr l => rw [hsum] at heq; cases heq
  | obj sk =>
    rw [hsum] at heq
    dsimp only [bind, Except.bind] at heq
    cases h1 : RSpecParser.summaryCount sk "example_count" with
    | error e => rw [h1] at heq; cases heq
    | ok total =>
      rw [h1] at heq
      dsimp only at heq
      cases h2 : RSpecParser.summaryCount sk "failure_count" with
      | error e => rw [h2] at heq; cases heq
      | ok failed =>
        rw [h2] at heq
        dsimp only at heq
        cases h3 : RSpecParser.summaryCount sk "error_count" with
        | error e => rw [h3] at heq; cases heq
        | ok errs =>
          rw [h3] at heq
          dsimp only at heq
          cases h4 : RSpecParser.examplesList ((kvs.lookup "examples").getD (JValue.arr [])) with
          | error e => rw [h4] at heq; cases heq
          | ok exs =>
            rw [h4] at heq
            dsimp only at heq
            cases h5 : RSpecParser.groupExamples exs [] with
            | error e => rw [h5] at heq; cases heq
            | ok groups =>
              rw [h5] at heq
              dsimp only at heq
              cases heq
              intro fr hfr
              dsimp only at hfr
              rcases List.mem_map.mp hfr with ⟨kv, hkv, heq2⟩
              subst heq2
              intro t ht
              refine groupExamples_inv exs [] ?_ groups h5 kv hkv t ht
              intro kv2 hkv2
              cases hkv2

/-- Whatever `json.loads` returned, if `RSpecParser.parse` returns an
aggregate at all, the aggregate satisfies the invariant. -/
lemma rspec_parseWith_inv (load : Except String JValue) (content : String)
    (d : ParsedTestData) (heq : RSpecParser.parseWith load content = .ok d) :
    dataInv d := by
  cases load with
  | error m =>
    unfold RSpecParser.parseWith at heq
    cases heq
    exact rspec_parseAsText_inv _ _
  | ok v =>
    cases v with
    | null => unfold RSpecParser.parseWith at heq; cases heq
    | bool b => unfold RSpecParser.parseWith at heq; cases heq
    | num q => unfold RSpecParser.parseWith at heq; cases heq
    | str s => unfold RSpecParser.parseWith at heq; cases heq
    | arr l => unfold RSpecParser.parseWith at heq; cases heq
    | obj kvs =>
      unfold RSpecParser.parseWith at heq
      dsimp only at heq
      split at heq
      · cases heq
      · exact parseRspecJson_inv kvs d heq

/-- C5: classification exclusivity.  Every result constructed by the
TAP, pytest and JUnit parsers (fallback paths included) — and, for the
RSpec parser, every result of any run that returns an aggregate at all —
satisfies the schema invariant that a passed result never carries an
error message; and on any result satisfying that invariant the three
classifications passed / is_failure / is_error are mutually exclusive
and exhaustive. -/
theorem c5_classification_exclusivity :
    (∀ content, dataInv (TAPParser.parse content)) ∧
    (∀ content, dataInv (PytestParser.parse content)) ∧
    (∀ load content, dataInv (JUnitParser.parseWith load content)) ∧
    (∀ load content d, RSpecParser.parseWith load content = .ok d → dataInv d) ∧
    (∀ t : ParsedTestResult, resultInv t →
      (t.passed = true ∧ t.is_failure = false ∧ t.is_error = false) ∨
      (t.passed = false ∧ t.is_failure = true ∧ t.is_error = false) ∨
      (t.passed = false ∧ t.is_failure = false ∧ t.is_error = true)) := by
  refine ⟨tap_parse_inv, pytest_parse_inv, junit_parseWith_inv,
    fun load content d h => rspec_parseWith_inv load content d h, ?_⟩
  intro t _
  cases hp : t.passed with
  | true =>
    left
    refine ⟨rfl, ?_, ?_⟩
    · simp [ParsedTestResult.is_failure, hp]
    · simp [ParsedTestResult.is_error, hp]
  | false =>
    cases hm : t.error_message with
    | none =>
      right
      left
      refine ⟨rfl, ?_, ?_⟩
      · simp [ParsedTestResult.is_failure, hp, hm]
      · simp [ParsedTestResult.is_error, hp, hm]
    | some m =>
      right
      right
      refine ⟨rfl, ?_, ?_⟩
      · simp [ParsedTestResult.is_failure, hp, hm]
      · simp [ParsedTestResult.is_error, hp, hm]

theorem c5_classification_exclusivity_witness :
    RSpecParser.parseWith (.ok (JValue.obj [("examples", JValue.arr [])])) "" =
      .ok ({} : ParsedTestData) ∧
    dataInv ({} : ParsedTestData) ∧
    (({ name := "t", passed := false, error_message := some "E" } : ParsedTestResult).passed = false ∧
     ({ name := "t", passed := false, error_message := some "E" } : ParsedTestResult).is_failure = false ∧
     ({ name := "t", passed := false, error_message := some "E" } : ParsedTestResult).is_error = true) :=
  ⟨rfl,
   c5_classification_exclusivity.2.2.2.1
     (.ok (JValue.obj [("examples", JValue.arr [])])) "" ({} : ParsedTestData) rfl,
   by
     rcases c5_classification_exclusivity.2.2.2.2
         ({ name := "t", passed := false, error_message := some "E" } : ParsedTestResult)
         (by intro hp; cases hp) with h | h | h
     · cases h.1
     · cases h.2.1
     · exact h⟩

/-! ### C8: ordering of emitted failure details -/

/-- A file result whose original order lists an assertion failure
before an error. -/
def c8File : ParsedFileResult :=
  { file_path := "f.rb",
    test_results :=
      [{ name := "t1", line := some 3, passed := false,
         expected := some "1", actual := some "2" },
       { name := "t2", line := some 9, passed := false,
         error_message := some "E" }] }

/-- The v0.2 failures/all emission as the spec describes it: every file
with non-passed results contributes one entry whose tests are the
error-classified results first, then the failure-classified ones. -/
def v02FailuresSpec (np : String → String) (b : TokenBudget)
    (frs : List ParsedFileResult) : List FileSummary :=
  (frs.filter (fun fr => !(failedOf fr).isEmpty)).map
    (fun fr =>
      { file := np fr.file_path,
        tests := ((failedOf fr).filter (fun t => t.is_error) ++
                  (failedOf fr).filter (fun t => t.is_failure)).map
                   (fun t => (TOPAEncoder.buildTestResult b t).1) })

/-- The focus-mode selection of one file, as `_build_failures` makes it. -/
def v3FilteredOf (fm : FocusMode) (fr : ParsedFileResult) :
    List ParsedTestResult :=
  TOPAV3Encoder.filteredOf fm (failedOf fr)

/-- The v0.3 emission in source order: each contributing file maps its
filtered non-passed results in their original order — no error-first
reordering. -/
def v3FailuresSpec (fm : FocusMode) (np : String → String)
    (frs : List ParsedFileResult) : List (String × List V3FailureResult) :=
  (frs.filter (fun fr => !(v3FilteredOf fm fr).isEmpty)).map
    (fun fr => (np fr.file_path, (v3FilteredOf fm fr).map TOPAV3Encoder.mkV3Failure))

lemma isEmpty_map_eq {α β : Type} (f : α → β) (l : List α) :
    (l.map f).isEmpty = l.isEmpty := by
  cases l <;> rfl

lemma buildV3Tests_budget (b : TokenBudget) :
    ∀ ts, (TOPAV3Encoder.buildV3Tests b ts).2 = b := by
  intro ts
  induction ts with
  | nil => rfl
  | cons t ts ih =>
    unfold TOPAV3Encoder.buildV3Tests
    dsimp only
    split
    · rfl
    · exact ih

lemma buildV3Tests_all (b : TokenBudget) (hb : b.hasBudget none = true) :
    ∀ ts, (TOPAV3Encoder.buildV3Tests b ts).1 = ts.map TOPAV3Encoder.mkV3Failure := by
  intro ts
  induction ts with
  | nil => rfl
  | cons t ts ih =>
    unfold TOPAV3Encoder.buildV3Tests
    dsimp only
    rw [hb]
    simp only [Bool.not_true]
    rw [if_neg Bool.false_ne_true]
    dsimp only
    rw [ih, List.map_cons]

lemma dictInsert_fresh :
    ∀ (m : List (String × List V3FailureResult)) (k : String)
      (v : List V3FailureResult), k ∉ m.map Prod.fst →
      TOPAV3Encoder.dictInsert m k v = m ++ [(k, v)] := by
  intro m
  induction m with
  | nil =>
    intro k v _
    rfl
  | cons kv rest ih =>
    intro k v hk
    obtain ⟨k1, v1⟩ := kv
    rw [List.map_cons, List.mem_cons] at hk
    push_neg at hk
    unfold TOPAV3Encoder.dictInsert
    rw [if_neg (fun h => hk.1 h.symm), ih k v hk.2, List.cons_append]

lemma v3FilteredOf_empty (fm : FocusMode) (fr : ParsedFileResult)
    (h : (failedOf fr).isEmpty = true) :
    (v3FilteredOf fm fr).isEmpty = true := by
  rw [List.isEmpty_iff] at h
  unfold v3FilteredOf TOPAV3Encoder.filteredOf
  rw [h]
  cases fm <;> rfl

lemma v3Spec_cons_skip (fm : FocusMode) (np : String → String)
    (fr : ParsedFileResult) (rest : List ParsedFileResult)
    (h : (v3FilteredOf fm fr).isEmpty = true) :
    v3FailuresSpec fm np (fr :: rest) = v3FailuresSpec fm np rest := by
  unfold v3FailuresSpec
  rw [List.filter_cons_of_neg (by simp [h])]

lemma v3Spec_cons_keep (fm : FocusMode) (np : String → String)
    (fr : ParsedFileResult) (rest : List ParsedFileResult)
    (h : (v3FilteredOf fm fr).isEmpty = false) :
    v3FailuresSpec fm np (fr :: rest) =
      (np fr.file_path, (v3FilteredOf fm fr).map TOPAV3Encoder.mkV3Failure) ::
        v3FailuresSpec fm np rest := by
  unfold v3FailuresSpec
  rw [List.filter_cons_of_pos (by simp [h]), List.map_cons]

lemma buildFailuresGo_spec (fm : FocusMode) (np : String → String)
    (b : TokenBudget) (hb : b.hasBudget none = true) :
    ∀ (frs : List ParsedFileResult) (acc : List (String × List V3FailureResult)),
      (∀ fr ∈ frs, np fr.file_path ∉ acc.map Prod.fst) →
      (frs.map (fun fr => np fr.file_path)).Nodup →
      TOPAV3Encoder.buildFailuresGo fm np frs acc b =
        (acc ++ v3FailuresSpec fm np frs, b) := by
  intro frs
  induction frs with
  | nil =>
    intro acc _ _
    rw [TOPAV3Encoder.buildFailuresGo]
    unfold v3FailuresSpec
    simp
  | cons fr rest ih =>
    intro acc hfresh hnd
    rw [List.map_cons, List.nodup_cons] at hnd
    rw [TOPAV3Encoder.buildFailuresGo.eq_def]
    dsimp only
    cases hfe : (failedOf fr).isEmpty with
    | true =>
      rw [if_pos rfl, v3Spec_cons_skip fm np fr rest (v3FilteredOf_empty fm fr hfe)]
      exact ih acc (fun fr2 h2 => hfresh fr2 (List.mem_cons_of_mem _ h2)) hnd.2
    | false =>
      rw [if_neg Bool.false_ne_true]
      cases hfi : (TOPAV3Encoder.filteredOf fm (failedOf fr)).isEmpty with
      | true =>
        rw [if_pos rfl, v3Spec_cons_skip fm np fr rest hfi]
        exact ih acc (fun fr2 h2 => hfresh fr2 (List.mem_cons_of_mem _ h2)) hnd.2
      | false =>
        rw [if_neg Bool.false_ne_true]
        rw [buildV3Tests_all b hb, buildV3Tests_budget b]
        rw [isEmpty_map_eq, hfi, if_neg Bool.false_ne_true]
        rw [dictInsert_fresh acc (np fr.file_path)
          ((TOPAV3Encoder.filteredOf fm (failedOf fr)).map TOPAV3Encoder.mkV3Failure)
          (hfresh fr (List.mem_cons_self _ _))]
        rw [hb]
        simp only [Bool.not_true]
        rw [if_neg Bool.false_ne_true]
        have hfresh2 : ∀ fr2 ∈ rest, np fr2.file_path ∉
            (acc ++ [(np fr.file_path,
              (TOPAV3Encoder.filteredOf fm (failedOf fr)).map
                TOPAV3Encoder.mkV3Failure)]).map Prod.fst := by
          intro fr2 h2
          rw [List.map_append, List.mem_append]
          intro hc
          rcases hc with hc | hc
          · exact hfresh fr2 (List.mem_cons_of_mem _ h2) hc
          · rw [List.map_singleton, List.mem_singleton] at hc
            refine hnd.1 ?_
            rw [List.mem_map]
            exact ⟨fr2, h2, hc⟩
        rw [ih _ hfresh2 hnd.2, v3Spec_cons_keep fm np fr rest hfi]
        rw [List.append_assoc, List.singleton_append]
        rfl

lemma buildFailures_spec (b : TokenBudget) (fm : FocusMode)
    (np : String → String) (frs : List ParsedFileResult)
    (hb : b.hasBudget none = true)
    (hnd : (frs.map (fun fr => np fr.file_path)).Nodup) :
    TOPAV3Encoder.buildFailures b fm np frs = (v3FailuresSpec fm np frs, b) := by
  unfold TOPAV3Encoder.buildFailures
  rw [buildFailuresGo_spec fm np b hb frs [] (by simp) hnd]
  rw [List.nil_append]

lemma errFail_append_ne_nil {fl : List ParsedTestResult}
    (hall : ∀ t ∈ fl, (!t.passed) = true) (h : fl.isEmpty = false) :
    (fl.filter (fun t => t.is_error) ++
     fl.filter (fun t => t.is_failure)).isEmpty = false := by
  cases fl with
  | nil => cases h
  | cons t ts =>
    have hp : t.passed = false := by
      have := hall t (List.mem_cons_self t ts)
      rwa [Bool.not_eq_true'] at this
    cases hm : t.error_message with
    | some m =>
      have he : t.is_error = true := by
        simp [ParsedTestResult.is_error, hp, hm]
      have hmem : t ∈ (t :: ts).filter (fun t => t.is_error) ++
          (t :: ts).filter (fun t => t.is_failure) :=
        List.mem_append_left _
          (List.mem_filter.mpr ⟨List.mem_cons_self t ts, he⟩)
      cases hres : ((t :: ts).filter (fun t => t.is_error) ++
          (t :: ts).filter (fun t => t.is_failure)).isEmpty with
      | false => rfl
      | true =>
        rw [List.isEmpty_iff] at hres
        rw [hres] at hmem
        cases hmem
    | none =>
      have he : t.is_failure = true := by
        simp [ParsedTestResult.is_failure, hp, hm]
      have hmem : t ∈ (t :: ts).filter (fun t => t.is_error) ++
          (t :: ts).filter (fun t => t.is_failure) :=
        List.mem_append_right _
          (List.mem_filter.mpr ⟨List.mem_cons_self t ts, he⟩)
      cases hres : ((t :: ts).filter (fun t => t.is_error) ++
          (t :: ts).filter (fun t => t.is_failure)).isEmpty with
      | false => rfl
      | true =>
        rw [List.isEmpty_iff] at hres
        rw [hres] at hmem
        cases hmem

lemma v02Spec_cons_skip (np : String → String) (b : TokenBudget)
    (fr : ParsedFileResult) (rest : List ParsedFileResult)
    (h : (failedOf fr).isEmpty = true) :
    v02FailuresSpec np b (fr :: rest) = v02FailuresSpec np b rest := by
  unfold v02FailuresSpec
  rw [List.filter_cons_of_neg (by simp [h])]

lemma v02Spec_cons_keep (np : String → String) (b : TokenBudget)
    (fr : ParsedFileResult) (rest : List ParsedFileResult)
    (h : (failedOf fr).isEmpty = false) :
    v02FailuresSpec np b (fr :: rest) =
      { file := np fr.file_path,
        tests := ((failedOf fr).filter (fun t => t.is_error) ++
                  (failedOf fr).filter (fun t => t.is_failure)).map
                   (fun t => (TOPAEncoder.buildTestResult b t).1) } ::
        v02FailuresSpec np b rest := by
  unfold v02FailuresSpec
  rw [List.filter_cons_of_pos (by simp [h]), List.map_cons]

lemma buildAllTests_noCutoff (b : TokenBudget) (hp : ¬ b.usedPercentage > 80) :
    ∀ ts, TOPAEncoder.buildAllTests b ts =
      (ts.map (fun t => (TOPAEncoder.buildTestResult b t).1), b) := by
  intro ts
  induction ts with
  | nil => rfl
  | cons t ts ih =>
    unfold TOPAEncoder.buildAllTests
    dsimp only
    rw [buildTestResult_budget]
    rw [if_neg hp, ih, List.map_cons]

lemma buildAllFailureDetails_spec (np : String → String) (b : TokenBudget)
    (hb : b.hasBudget none = true) (hp : ¬ b.usedPercentage > 80) :
    ∀ frs, TOPAEncoder.buildAllFailureDetails np b frs =
      (v02FailuresSpec np b frs, b) := by
  intro frs
  induction frs with
  | nil => rfl
  | cons fr rest ih =>
    rw [TOPAEncoder.buildAllFailureDetails.eq_def]
    dsimp only
    cases hfe : (failedOf fr).isEmpty with
    | true =>
      rw [if_pos rfl, v02Spec_cons_skip np b fr rest hfe]
      exact ih
    | false =>
      rw [if_neg Bool.false_ne_true]
      rw [buildAllTests_noCutoff b hp]
      dsimp only
      rw [isEmpty_map_eq]
      have hall : ∀ t ∈ failedOf fr, (!t.passed) = true := by
        intro t ht
        unfold failedOf at ht
        exact (List.mem_filter.mp ht).2
      rw [errFail_append_ne_nil hall hfe, if_neg Bool.false_ne_true]
      rw [hb]
      simp only [Bool.not_true]
      rw [if_neg Bool.false_ne_true]
      rw [ih, v02Spec_cons_keep np b fr rest hfe]
      rw [List.singleton_append]

/-- C8 counterexample: on a file whose results list an assertion
failure before an error, the v0.3 encoder emits the failure first — it
performs no error-before-failure reordering — so the two encoder
variants do not share the claimed ordering. -/
theorem c8_order_counterexample :
    (TOPAV3Encoder.buildFailures (TokenBudget.postInit 100) .failures id
        [c8File]).1 =
      [("f.rb",
        [{ line := 3, description := "test failed", test_name := "t1",
           expected := some "1", actual := some "2" },
         { line := 9, description := "error occurred", test_name := "t2" }])] := by
  decide

/-- C8 (amended): with budget available and usage at or below the 80
percent cut-off, the v0.2 failures emission lists each contributing
file's error-classified results before its failure-classified ones,
while the v0.3 emission preserves the original order of the filtered
non-passed results of each file (no error-first reordering), assuming
normalized file paths are distinct. -/
theorem c8_failure_ordering (np : String → String) (b : TokenBudget)
    (fm : FocusMode) (frs : List ParsedFileResult)
    (hb : b.hasBudget none = true) (hp : ¬ b.usedPercentage > 80)
    (hnd : (frs.map (fun fr => np fr.file_path)).Nodup) :
    (TOPAEncoder.buildAllFailureDetails np b frs).1 = v02FailuresSpec np b frs ∧
    (TOPAV3Encoder.buildFailures b fm np frs).1 = v3FailuresSpec fm np frs := by
  constructor
  · rw [buildAllFailureDetails_spec np b hb hp frs]
  · rw [buildFailures_spec b fm np frs hb hnd]

theorem c8_failure_ordering_witness :
    (TokenBudget.postInit 100).hasBudget none = true ∧
    ¬ (TokenBudget.postInit 100).usedPercentage > 80 ∧
    ([c8File].map (fun fr => id fr.file_path)).Nodup ∧
    ((TOPAEncoder.buildAllFailureDetails id (TokenBudget.postInit 100)
        [c8File]).1 = v02FailuresSpec id (TokenBudget.postInit 100) [c8File] ∧
     (TOPAV3Encoder.buildFailures (TokenBudget.postInit 100) .all id
        [c8File]).1 = v3FailuresSpec .all id [c8File]) := by
  refine ⟨by decide, ?_, by decide,
    c8_failure_ordering id (TokenBudget.postInit 100) .all [c8File]
      (by decide) ?_ (by decide)⟩ <;>
    norm_num [TokenBudget.usedPercentage, TokenBudget.postInit,
      TokenBudget.YAML_OVERHEAD]
